import Mathlib

/-!
Verification of the meal-scan redemption core of the subscription
meal-tracking backend.

The development shallowly embeds the redemption pipeline:

* the QR token codec (`utils/qr.js`: `createQrToken` / `verifyQrToken`),
* the atomic balance decrement (`models/Subscription.js`: `deductMeal`)
  and the clamped read-modify-write in `services/scanCore.js`,
* the scan coordinator (`utils/mealScanner.js`: `MealScanner.processScan`),
* the idempotent coordinator (`services/idempotentScanService.js`),
* the batch driver (`routes/scanBatch.js`),
* the meal-window resolver (`utils/mealTypeHelper.js`: `determineMealType`),
* the settings cache (`utils/settingsCache.js`: `getSettings`).

Strings of bytes are modelled as `List Nat` (each element a byte value);
timestamps are integer milliseconds; Mongo documents are Lean structures and
collections are lists.  External primitives of the runtime (HMAC-SHA256,
base64 decoding, JSON parsing) are universally quantified function
parameters: no theorem below depends on their implementation beyond the
hypotheses stated about them.
-/

namespace MealScan

/-! ## Byte-string utilities used by the token codec (`utils/qr.js`) -/

/-- The ASCII code of the segment delimiter used by the token format.
Bytes are modelled as plain naturals; concrete inputs keep them below 256. -/
def dotNat : Nat := 46

/-- Lowercase hex digit, as produced by Node `digest('hex')`. -/
def hexDigitChar (d : Nat) : Nat := if d < 10 then 48 + d else 87 + d

/-- Hex encoding of a byte string (two lowercase digits per byte). -/
def hexEncode : List Nat → List Nat
  | [] => []
  | b :: rest => hexDigitChar (b / 16) :: hexDigitChar (b % 16) :: hexEncode rest

/-- Is `c` an ASCII hex digit (`0-9`, `a-f`, `A-F`)? -/
def isHexDigit (c : Nat) : Bool :=
  (48 ≤ c && c ≤ 57) || (97 ≤ c && c ≤ 102) || (65 ≤ c && c ≤ 70)

/-- Numeric value of an ASCII hex digit. -/
def hexVal (c : Nat) : Nat :=
  if 48 ≤ c && c ≤ 57 then c - 48
  else if 97 ≤ c && c ≤ 102 then c - 87
  else c - 55

/-- Node `Buffer.from(s, 'hex')`: decodes two-digit pairs and truncates at the
first invalid pair or at a trailing lone digit (it does not throw). -/
def hexDecode : List Nat → List Nat
  | a :: b :: rest =>
      if isHexDigit a && isHexDigit b then (hexVal a * 16 + hexVal b) :: hexDecode rest
      else []
  | _ => []

/-- JS `s.split('.')`: splits at every dot and keeps empty segments, so the
result is always nonempty (`''.split('.') = ['']`). -/
def splitOnDot : List Nat → List (List Nat)
  | [] => [[]]
  | c :: cs =>
      if c = dotNat then [] :: splitOnDot cs
      else
        match splitOnDot cs with
        | [] => [[c]]
        | h :: t => (c :: h) :: t

/-! ## The token codec: `verifyQrToken` (`utils/qr.js`) -/

/-- Exceptions that can be raised inside the `try` block of `verifyQrToken`
and surface through its `catch` as `{valid: false, error: err.message}`. -/
inductive ThrownErr
  | timingSafeLength
  | parseFailure
  deriving DecidableEq, Repr

/-- The `error` field of a `{valid: false}` result of `verifyQrToken`:
`invalidType` is `'Invalid token type'`, `missingPart` is
`'Missing payload or signature'`, `sigMismatch` is `'Signature mismatch'`,
and `caught e` is the message of an exception caught by the wrapper. -/
inductive VerifyError
  | invalidType
  | missingPart
  | sigMismatch
  | caught (e : ThrownErr)
  deriving DecidableEq, Repr

/-- The tagged result `{valid: true, payload} | {valid: false, error}`. -/
inductive VerifyResult (α : Type) : Type
  | ok (payload : α)
  | invalid (e : VerifyError)
  deriving DecidableEq, Repr

/-- A JS value handed to `verifyQrToken`: a string of bytes, or any
non-string value (rejected by the `typeof token !== 'string'` guard;
the empty string is falsy and takes the same branch). -/
inductive JsValue
  | str (s : List Nat)
  | nonString
  deriving DecidableEq, Repr

/-- `crypto.timingSafeEqual`: throws when the buffers differ in length,
otherwise reports byte equality.  (Its constant-time execution is a timing
property outside this embedding; only its input-output behaviour is
modelled.) -/
def timingSafeEqual (a b : List Nat) : Except ThrownErr Bool :=
  if a.length = b.length then .ok (decide (a = b)) else .error .timingSafeLength

/-- `verifyQrToken(token, secret)` from `utils/qr.js`.  `hmac` stands for
`crypto.createHmac('sha256', secret).update(·).digest()` (raw bytes, hex
encoding applied explicitly as in the source), `b64decode` for
`Buffer.from(·, 'base64')` (lenient, never throws) and `jsonParse` for
`JSON.parse` (which may throw).  Exceptions raised in the body are caught
and returned as `.invalid (.caught e)` exactly as the source's `try/catch`
does. -/
def verifyQrToken {α : Type} (hmac : List Nat → List Nat)
    (b64decode : List Nat → List Nat)
    (jsonParse : List Nat → Except ThrownErr α)
    (token : JsValue) : VerifyResult α :=
  match token with
  | .nonString => .invalid .invalidType
  | .str s =>
      if s = [] then .invalid .invalidType
      else
        let parts := splitOnDot s
        let payloadB64 := parts.getD 0 []
        let signature := parts.getD 1 []
        if payloadB64 = [] ∨ signature = [] then .invalid .missingPart
        else
          let expected := hexEncode (hmac payloadB64)
          match timingSafeEqual (hexDecode expected) (hexDecode signature) with
          | .error e => .invalid (.caught e)
          | .ok eq =>
              if eq then
                match jsonParse (b64decode payloadB64) with
                | .error e => .invalid (.caught e)
                | .ok p => .ok p
              else .invalid .sigMismatch

/-- Flip bit `k` of the byte at position `i` (identity out of range). -/
def flipBitAt (l : List Nat) (i k : Nat) : List Nat :=
  match l[i]? with
  | some b => l.set i (b ^^^ 2 ^ k)
  | none => l

/-! ### Codec lemmas -/

theorem hexDigitChar_ne_dot (d : Nat) : hexDigitChar d ≠ dotNat := by
  show hexDigitChar d ≠ 46
  unfold hexDigitChar
  split <;> omega

theorem dot_not_mem_hexEncode (l : List Nat) : dotNat ∉ hexEncode l := by
  induction l with
  | nil => simp [hexEncode]
  | cons b rest ih =>
      simp only [hexEncode, List.mem_cons, not_or]
      exact ⟨fun h => hexDigitChar_ne_dot _ h.symm,
             fun h => hexDigitChar_ne_dot _ h.symm, ih⟩

theorem isHexDigit_hexDigitChar {d : Nat} (h : d < 16) :
    isHexDigit (hexDigitChar d) = true := by
  interval_cases d <;> decide

theorem hexVal_hexDigitChar {d : Nat} (h : d < 16) :
    hexVal (hexDigitChar d) = d := by
  interval_cases d <;> decide

theorem hexDecode_hexEncode {l : List Nat} (h : ∀ b ∈ l, b < 256) :
    hexDecode (hexEncode l) = l := by
  induction l with
  | nil => rfl
  | cons b rest ih =>
      have hb : b < 256 := h b (List.mem_cons_self _ _)
      have hdiv : b / 16 < 16 := by omega
      have hmod : b % 16 < 16 := Nat.mod_lt _ (by norm_num)
      have hsum : hexVal (hexDigitChar (b / 16)) * 16 + hexVal (hexDigitChar (b % 16)) = b := by
        rw [hexVal_hexDigitChar hdiv, hexVal_hexDigitChar hmod]; omega
      simp only [hexEncode, hexDecode, isHexDigit_hexDigitChar hdiv,
        isHexDigit_hexDigitChar hmod, Bool.and_self, if_true, hsum]
      exact congrArg (b :: ·) (ih fun x hx => h x (List.mem_cons_of_mem _ hx))

theorem splitOnDot_ne_nil (l : List Nat) : splitOnDot l ≠ [] := by
  cases l with
  | nil => simp [splitOnDot]
  | cons c cs =>
      unfold splitOnDot
      split
      · simp
      · split <;> simp

theorem splitOnDot_of_not_mem {l : List Nat} (h : dotNat ∉ l) :
    splitOnDot l = [l] := by
  induction l with
  | nil => rfl
  | cons c cs ih =>
      simp only [List.mem_cons, not_or] at h
      unfold splitOnDot
      rw [if_neg (fun hc => h.1 hc.symm), ih h.2]

theorem splitOnDot_append {a b : List Nat} (ha : dotNat ∉ a) :
    splitOnDot (a ++ dotNat :: b) = a :: splitOnDot b := by
  induction a with
  | nil => simp [splitOnDot]
  | cons c cs ih =>
      simp only [List.mem_cons, not_or] at ha
      simp only [List.cons_append]
      conv_lhs => unfold splitOnDot
      rw [if_neg (fun hc => ha.1 hc.symm), ih ha.2]

theorem hexEncode_ne_nil {l : List Nat} (h : l ≠ []) : hexEncode l ≠ [] := by
  cases l with
  | nil => exact absurd rfl h
  | cons b rest => simp [hexEncode]

theorem flipBitAt_ne_nil {l : List Nat} (h : l ≠ []) (i k : Nat) :
    flipBitAt l i k ≠ [] := by
  unfold flipBitAt
  cases hgl : l[i]? with
  | none => exact h
  | some b =>
      intro hc
      exact h (List.eq_nil_of_length_eq_zero (by
        have := congrArg List.length hc
        simpa using this))

/-- Evaluation of `verifyQrToken` on a token made of a dot-free payload
segment, the delimiter, and a dot-free signature segment. -/
theorem verifyQrToken_segments {α : Type} (hmac : List Nat → List Nat)
    (b64decode : List Nat → List Nat) (jsonParse : List Nat → Except ThrownErr α)
    {p sig : List Nat} (hp : p ≠ []) (hs : sig ≠ [])
    (hdp : dotNat ∉ p) (hds : dotNat ∉ sig) :
    verifyQrToken hmac b64decode jsonParse (.str (p ++ dotNat :: sig)) =
      match timingSafeEqual (hexDecode (hexEncode (hmac p))) (hexDecode sig) with
      | .error e => .invalid (.caught e)
      | .ok eq =>
          if eq then
            match jsonParse (b64decode p) with
            | .error e => .invalid (.caught e)
            | .ok pl => .ok pl
          else .invalid .sigMismatch := by
  have hne : p ++ dotNat :: sig ≠ [] := by simp
  simp only [verifyQrToken]
  rw [if_neg hne, splitOnDot_append hdp, splitOnDot_of_not_mem hds]
  simp only [List.getD_cons_zero, List.getD_cons_succ]
  rw [if_neg (by push_neg; exact ⟨hp, hs⟩)]

/-! ### Sample instantiations of the runtime primitives, used in witnesses
and counterexamples.  `hmacSample` is any fixed-output-length keyed digest;
the theorems only use the point facts stated about it. -/

def hmacSample (l : List Nat) : List Nat :=
  [l.foldl (fun a b => (a + b) % 256) 7]

def jsonParseOk (l : List Nat) : Except ThrownErr (List Nat) := .ok l

def jsonParseBad (_l : List Nat) : Except ThrownErr (List Nat) :=
  .error .parseFailure

/-- The base64 payload segment of the credential
`createQrToken({"abc":"?"}, secret)`: the bytes of `"eyJhYmMiOiI/In0="`.
Byte 11 is `/` (47); flipping its lowest bit yields the delimiter `.` (46). -/
def payloadSegSample : List Nat :=
  [101, 121, 74, 104, 89, 109, 77, 105, 79, 105, 73, 47, 73, 110, 48, 61]

/-- **C10.** `verifyQrToken` is total at its public interface: every input
value produces a tagged `{valid: true, payload}` or `{valid: false, error}`
result and no exception escapes to the caller.  Conjuncts: (1) every result
is tagged; (2) non-string inputs are rejected; (3) a string with no
delimiter is rejected as a missing payload/signature; (4) a signature
segment whose hex decoding differs in length from the recomputed MAC makes
`crypto.timingSafeEqual` itself throw, and the `catch` converts that into a
`{valid: false}` result; (5) a payload whose JSON parse throws is likewise
converted into a `{valid: false}` result. -/
theorem verifyQrToken_total_tagged :
    (∀ (hmac b64decode : List Nat → List Nat)
       (jsonParse : List Nat → Except ThrownErr (List Nat)) (v : JsValue),
       (∃ pl, verifyQrToken hmac b64decode jsonParse v = .ok pl) ∨
       (∃ e, verifyQrToken hmac b64decode jsonParse v = .invalid e)) ∧
    (∀ (hmac b64decode : List Nat → List Nat)
       (jsonParse : List Nat → Except ThrownErr (List Nat)),
       verifyQrToken hmac b64decode jsonParse .nonString = .invalid .invalidType) ∧
    (∀ (hmac b64decode : List Nat → List Nat)
       (jsonParse : List Nat → Except ThrownErr (List Nat)) (s : List Nat),
       s ≠ [] → dotNat ∉ s →
       verifyQrToken hmac b64decode jsonParse (.str s) = .invalid .missingPart) ∧
    (∀ (hmac b64decode : List Nat → List Nat)
       (jsonParse : List Nat → Except ThrownErr (List Nat)) (p sig : List Nat),
       p ≠ [] → sig ≠ [] → dotNat ∉ p → dotNat ∉ sig →
       (hexDecode (hexEncode (hmac p))).length ≠ (hexDecode sig).length →
       verifyQrToken hmac b64decode jsonParse (.str (p ++ dotNat :: sig)) =
         .invalid (.caught .timingSafeLength)) ∧
    (∀ (hmac b64decode : List Nat → List Nat)
       (jsonParse : List Nat → Except ThrownErr (List Nat)) (p sig : List Nat)
       (e : ThrownErr),
       p ≠ [] → sig ≠ [] → dotNat ∉ p → dotNat ∉ sig →
       hexDecode (hexEncode (hmac p)) = hexDecode sig →
       jsonParse (b64decode p) = .error e →
       verifyQrToken hmac b64decode jsonParse (.str (p ++ dotNat :: sig)) =
         .invalid (.caught e)) := by
  refine ⟨?_, ?_, ?_, ?_, ?_⟩
  · intro hmac b64decode jsonParse v
    cases h : verifyQrToken hmac b64decode jsonParse v with
    | ok pl => exact Or.inl ⟨pl, rfl⟩
    | invalid e => exact Or.inr ⟨e, rfl⟩
  · intro hmac b64decode jsonParse
    rfl
  · intro hmac b64decode jsonParse s hs hds
    simp only [verifyQrToken]
    rw [if_neg hs, splitOnDot_of_not_mem hds]
    simp only [List.getD_cons_zero, List.getD_cons_succ, List.getD_nil]
    simp
  · intro hmac b64decode jsonParse p sig hp hs hdp hds hlen
    rw [verifyQrToken_segments hmac b64decode jsonParse hp hs hdp hds]
    unfold timingSafeEqual
    rw [if_neg hlen]
  · intro hmac b64decode jsonParse p sig e hp hs hdp hds heq hparse
    rw [verifyQrToken_segments hmac b64decode jsonParse hp hs hdp hds, heq]
    simp [timingSafeEqual, hparse]

/-- Closed witness for `verifyQrToken_total_tagged` at concrete inputs. -/
theorem verifyQrToken_total_tagged_witness :
    verifyQrToken hmacSample id jsonParseOk (.str [97, 98, 99]) =
      .invalid .missingPart ∧
    verifyQrToken hmacSample id jsonParseOk (.str ([97] ++ dotNat :: [48])) =
      .invalid (.caught .timingSafeLength) ∧
    verifyQrToken hmacSample id jsonParseBad
        (.str ([97] ++ dotNat :: hexEncode (hmacSample [97]))) =
      .invalid (.caught .parseFailure) := by
  refine ⟨?_, ?_, ?_⟩
  · exact verifyQrToken_total_tagged.2.2.1 hmacSample id jsonParseOk [97, 98, 99]
      (by decide) (by decide)
  · exact verifyQrToken_total_tagged.2.2.2.1 hmacSample id jsonParseOk [97] [48]
      (by decide) (by decide) (by decide) (by decide) (by decide)
  · exact verifyQrToken_total_tagged.2.2.2.2 hmacSample id jsonParseBad [97]
      (hexEncode (hmacSample [97])) .parseFailure (by decide) (by decide)
      (by decide) (by decide) (by rfl) (by rfl)

/-- **C2** counterexample.  Flipping bit 0 of byte 11 of the payload segment
`"eyJhYmMiOiI/In0="` of a valid credential turns the `/` into the delimiter
`.`, so `token.split('.')` re-segments the tampered token: the "signature"
segment becomes the base64 tail `"In0="`, whose hex decoding is shorter than
the recomputed MAC, `crypto.timingSafeEqual` throws, and decode returns the
caught-exception error — not the `'Signature mismatch'` (invalid-signature)
result that the claim promises for every bit flip.  (The tampered payload is
still never parsed; only the *kind* of rejection differs.)  The same control
flow is followed for any MAC function with nonempty output, in particular
for the real HMAC-SHA256. -/
theorem verifyQrToken_bitflip_counterexample :
    verifyQrToken hmacSample id jsonParseOk
        (.str (payloadSegSample ++ dotNat :: hexEncode (hmacSample payloadSegSample))) =
      .ok payloadSegSample ∧
    flipBitAt payloadSegSample 11 0 =
      [101, 121, 74, 104, 89, 109, 77, 105, 79, 105, 73, 46, 73, 110, 48, 61] ∧
    verifyQrToken hmacSample id jsonParseOk
        (.str (flipBitAt payloadSegSample 11 0 ++
          dotNat :: hexEncode (hmacSample payloadSegSample))) =
      .invalid (.caught .timingSafeLength) ∧
    VerifyError.caught .timingSafeLength ≠ VerifyError.sigMismatch := by
  decide

/-- **C2** (amended).  `verifyQrToken` recomputes the MAC over the received
payload segment and compares it with `crypto.timingSafeEqual` before any
parsing: for every valid credential and every bit flip in the payload
segment that does not turn a payload byte into the `.` delimiter, decode
returns the `'Signature mismatch'` (invalid-signature) result — and it does
so for *every* JSON parser and base64 decoder, i.e. the tampered payload is
never parsed.  (Flips that do produce a delimiter are still rejected without
parsing, but with a format/length error; see the counterexample.)  The MAC
is abstract; the hypotheses are the point facts true of HMAC-SHA256 on the
two payloads: fixed output length, byte-valued output, and no collision
between the original and the tampered segment. -/
theorem verifyQrToken_bitflip_sigMismatch
    (hmac : List Nat → List Nat) (b64decode : List Nat → List Nat)
    (jsonParse : List Nat → Except ThrownErr (List Nat))
    (p : List Nat) (i k : Nat)
    (hp : p ≠ []) (hdp' : dotNat ∉ flipBitAt p i k)
    (hb : ∀ b ∈ hmac p, b < 256)
    (hb' : ∀ b ∈ hmac (flipBitAt p i k), b < 256)
    (hlen : (hmac (flipBitAt p i k)).length = (hmac p).length)
    (hne : hmac (flipBitAt p i k) ≠ hmac p)
    (hmacne : hmac p ≠ []) :
    verifyQrToken hmac b64decode jsonParse
        (.str (flipBitAt p i k ++ dotNat :: hexEncode (hmac p))) =
      .invalid .sigMismatch := by
  have hp' : flipBitAt p i k ≠ [] := flipBitAt_ne_nil hp i k
  rw [verifyQrToken_segments hmac b64decode jsonParse hp'
        (hexEncode_ne_nil hmacne) hdp' (dot_not_mem_hexEncode _)]
  rw [hexDecode_hexEncode hb', hexDecode_hexEncode hb]
  unfold timingSafeEqual
  rw [if_pos hlen]
  simp [hne]

/-- Closed witness for `verifyQrToken_bitflip_sigMismatch` at a concrete
payload, bit position and MAC. -/
theorem verifyQrToken_bitflip_sigMismatch_witness :
    verifyQrToken hmacSample id jsonParseOk
        (.str (flipBitAt [97, 98, 99] 0 0 ++
          dotNat :: hexEncode (hmacSample [97, 98, 99]))) =
      .invalid .sigMismatch :=
  verifyQrToken_bitflip_sigMismatch hmacSample id jsonParseOk [97, 98, 99] 0 0
    (by decide) (by decide) (by decide) (by decide) (by decide) (by decide)
    (by decide)

/-! ## Domain model: subscriptions, meal types and transactions
(`models/Subscription.js`, `models/MealTransaction.js`, `models/Customer.js`)

Balances are `Int` so that the non-negativity invariant is expressible.
Document ids are synthetic naturals; `Date` values are integer milliseconds
(UTC assumed: `setHours(0,0,0,0)` is modelled as flooring to a multiple of
`86400000`). -/

inductive MealType
  | breakfast
  | lunch
  | dinner
  | snack
  deriving DecidableEq, Repr

/-- The per-meal-type balances subdocument `mealBalances`. -/
structure MealBalances where
  breakfast : Int
  lunch : Int
  dinner : Int
  snack : Int
  deriving DecidableEq, Repr

def MealBalances.get (m : MealBalances) : MealType → Int
  | .breakfast => m.breakfast
  | .lunch => m.lunch
  | .dinner => m.dinner
  | .snack => m.snack

def MealBalances.dec (m : MealBalances) : MealType → MealBalances
  | .breakfast => { m with breakfast := m.breakfast - 1 }
  | .lunch => { m with lunch := m.lunch - 1 }
  | .dinner => { m with dinner := m.dinner - 1 }
  | .snack => { m with snack := m.snack - 1 }

/-- A `Subscription` document (the fields read by the redemption code).
`mealBalances` is optional: legacy documents carry only `mealsRemaining`. -/
structure Subscription where
  id : Nat
  customerId : Nat
  mealsRemaining : Int
  mealBalances : Option MealBalances := none
  startDate : Int := 0
  endDate : Int
  active : Bool
  pausedAt : Option Int := none
  updatedAt : Int := 0
  planMealTypes : Option (List MealType) := none
  deriving DecidableEq, Repr

inductive TxStatus
  | success
  | blocked
  | failed
  | duplicate
  deriving DecidableEq, Repr

/-- Failure reasons recorded by the scanners (string enums in the source). -/
inductive FailureReason
  | invalid_qr
  | customer_not_found
  | invalid_meal_window
  | duplicate_scan
  | already_scanned_today
  | no_subscription
  | subscription_paused
  | no_meals_remaining
  | meal_type_not_allowed
  deriving DecidableEq, Repr

/-- A `MealTransaction` document (the fields read by the redemption code).
`mealType` is optional because `createFailedTransaction` can record the
out-of-window placeholder (`'unknown'`). -/
structure Tx where
  id : Nat
  customerId : Nat
  subscriptionId : Option Nat := none
  mealType : Option MealType := none
  status : TxStatus
  timestamp : Int
  failureReason : Option FailureReason := none
  duplicateOfTransaction : Option Nat := none
  clientId : Option Nat := none
  deriving DecidableEq, Repr

/-- A `Customer` document (the fields read by the redemption code). -/
structure Customer where
  id : Nat
  messId : Nat
  qrCodeId : Nat
  active : Bool
  deriving DecidableEq, Repr

/-- The mutable store visible to the redemption core. -/
structure ScanDb where
  customers : List Customer := []
  subs : List Subscription
  txs : List Tx
  deriving DecidableEq, Repr

/-- Milliseconds in a day. -/
def dayMs : Int := 86400000

/-- `date.setHours(0,0,0,0)`: floor to the start of the (UTC) day. -/
def dayStartMs (t : Int) : Int := (t / dayMs) * dayMs

/-- Local time of day in minutes (`getHours`/`getMinutes`), UTC assumed. -/
def todOfMs (t : Int) : Int := (t / 60000) % 1440

/-- Mongo `findOneAndUpdate(query, update, {new: true})` over a list of
documents: updates the first match in place and returns the updated
document; returns `none` and leaves the list unchanged when no document
matches. -/
def findOneAndUpdateSub (db : List Subscription) (pred : Subscription → Bool)
    (upd : Subscription → Subscription) : Option Subscription × List Subscription :=
  match db with
  | [] => (none, [])
  | s :: rest =>
      if pred s then (some (upd s), upd s :: rest)
      else
        let r := findOneAndUpdateSub rest pred upd
        (r.1, s :: r.2)

theorem findOneAndUpdateSub_none {db : List Subscription} {pred upd}
    (h : (findOneAndUpdateSub db pred upd).1 = none) :
    (findOneAndUpdateSub db pred upd).2 = db := by
  induction db with
  | nil => rfl
  | cons s rest ih =>
      unfold findOneAndUpdateSub at h ⊢
      by_cases hp : pred s
      · rw [if_pos hp] at h; exact absurd h (by simp)
      · rw [if_neg hp] at h ⊢
        simpa using ih h

theorem findOneAndUpdateSub_none_of_all {db : List Subscription} {pred upd}
    (h : ∀ s ∈ db, pred s = false) :
    findOneAndUpdateSub db pred upd = (none, db) := by
  induction db with
  | nil => rfl
  | cons s rest ih =>
      unfold findOneAndUpdateSub
      rw [if_neg (by simp [h s (List.mem_cons_self _ _)])]
      rw [ih fun x hx => h x (List.mem_cons_of_mem _ hx)]

theorem findOneAndUpdateSub_some {db : List Subscription} {pred upd}
    {u : Subscription} (h : (findOneAndUpdateSub db pred upd).1 = some u) :
    ∃ s ∈ db, pred s = true ∧ u = upd s := by
  induction db with
  | nil => exact absurd h (by simp [findOneAndUpdateSub])
  | cons s rest ih =>
      unfold findOneAndUpdateSub at h
      by_cases hp : pred s
      · rw [if_pos hp] at h
        exact ⟨s, List.mem_cons_self _ _, hp, by simpa using h.symm⟩
      · rw [if_neg hp] at h
        obtain ⟨x, hx, hpx, hu⟩ := ih (by simpa using h)
        exact ⟨x, List.mem_cons_of_mem _ hx, hpx, hu⟩

/-! ## The conditional decrement: `Subscription.methods.deductMeal`
(`models/Subscription.js` lines 146-176) and the clamped read-modify-write
of `services/scanCore.js` lines 114-117. -/

/-- `deductMeal(mealType)`: a single conditional `findOneAndUpdate`.  With a
`mealBalances` subdocument and a meal type it requires
`mealBalances[mealType] > 0` and `active: true` and decrements that balance
by exactly one; otherwise the legacy branch requires `mealsRemaining > 0`
and `active: true` and decrements `mealsRemaining` by exactly one.  `self`
is the in-memory document (`this`); only its identity and the presence of
its `mealBalances` field matter to the query. -/
def deductMeal (self : Subscription) (mealType : Option MealType)
    (db : List Subscription) : Option Subscription × List Subscription :=
  match self.mealBalances, mealType with
  | some _, some t =>
      findOneAndUpdateSub db
        (fun s => s.id == self.id &&
          (match s.mealBalances with
           | some m => decide (m.get t > 0)
           | none => false) && s.active)
        (fun s =>
          { s with mealBalances := s.mealBalances.map (fun m => m.dec t) })
  | _, _ =>
      findOneAndUpdateSub db
        (fun s => s.id == self.id && decide (s.mealsRemaining > 0) && s.active)
        (fun s => { s with mealsRemaining := s.mealsRemaining - 1 })

namespace ScanCore

/-- `scanCore.js` lines 96-117: the pre-read check
`subscription.mealsRemaining <= 0` on the in-memory snapshot (returning the
`no_meals_remaining` denial), followed — NOT by a conditional update — but
by the in-memory clamp `Math.max(0, mealsRemaining - 1)` and a plain
`save()`, which writes the clamped snapshot value over whatever the stored
document holds at write time.  `none` is the `EXPIRED / No meals remaining`
denial; `some` carries the updated in-memory document and the store after
the save. -/
def decrementStep (snapshot : Subscription) (db : List Subscription) :
    Option (Subscription × List Subscription) :=
  if snapshot.mealsRemaining ≤ 0 then none
  else
    let updated := { snapshot with mealsRemaining := max 0 (snapshot.mealsRemaining - 1) }
    some (updated,
      db.map fun s =>
        if s.id == snapshot.id then { s with mealsRemaining := updated.mealsRemaining }
        else s)

end ScanCore

/-- `findOneAndUpdateSub` preserves any property that the update preserves
on documents passing the precondition. -/
theorem findOneAndUpdateSub_forall (P : Subscription → Prop)
    (pred : Subscription → Bool) (upd : Subscription → Subscription) :
    ∀ (db : List Subscription), (∀ s ∈ db, P s) →
      (∀ s ∈ db, pred s = true → P (upd s)) →
      ∀ s' ∈ (findOneAndUpdateSub db pred upd).2, P s' := by
  intro db
  induction db with
  | nil => intro _ _ s' hs'; simp [findOneAndUpdateSub] at hs'
  | cons s rest ih =>
      intro h hupd s' hs'
      unfold findOneAndUpdateSub at hs'
      by_cases hp : pred s
      · rw [if_pos hp] at hs'
        rcases List.mem_cons.mp hs' with h1 | h2
        · exact h1 ▸ hupd s (List.mem_cons_self _ _) hp
        · exact h s' (List.mem_cons_of_mem _ h2)
      · rw [if_neg hp] at hs'
        rcases List.mem_cons.mp hs' with h1 | h2
        · exact h1 ▸ h s (List.mem_cons_self _ _)
        · exact ih (fun x hx => h x (List.mem_cons_of_mem _ hx))
            (fun x hx => hupd x (List.mem_cons_of_mem _ hx)) s' h2

theorem MealBalances.get_dec (m : MealBalances) (t t' : MealType) :
    (m.dec t).get t' = if t' = t then m.get t - 1 else m.get t' := by
  cases t <;> cases t' <;> simp [MealBalances.dec, MealBalances.get]

/-- The balance-shape invariant: every balance of the document is
non-negative. -/
def BalancesNonneg (s : Subscription) : Prop :=
  0 ≤ s.mealsRemaining ∧ ∀ m, s.mealBalances = some m → ∀ t, 0 ≤ m.get t

/-- Support: one `deductMeal` call preserves non-negativity of every balance
of every document in the store — it only decrements a balance its
precondition has just checked to be `> 0`. -/
theorem deductMeal_nonneg (self : Subscription) (mealType : Option MealType)
    (db : List Subscription) (h : ∀ s ∈ db, BalancesNonneg s) :
    ∀ s' ∈ (deductMeal self mealType db).2, BalancesNonneg s' := by
  unfold deductMeal
  have legacy : ∀ s' ∈ (findOneAndUpdateSub db
      (fun s => s.id == self.id && decide (s.mealsRemaining > 0) && s.active)
      (fun s => { s with mealsRemaining := s.mealsRemaining - 1 })).2,
      BalancesNonneg s' := by
    refine findOneAndUpdateSub_forall _ _ _ db h fun s hs hp => ?_
    simp only [Bool.and_eq_true, beq_iff_eq, decide_eq_true_eq] at hp
    refine ⟨?_, fun m hm t => ((h s hs).2 m hm t)⟩
    show (0:Int) ≤ s.mealsRemaining - 1
    omega
  cases hmb : self.mealBalances with
  | none =>
      cases mealType with
      | none => exact legacy
      | some t => exact legacy
  | some mb =>
      cases mealType with
      | none => exact legacy
      | some t =>
          refine findOneAndUpdateSub_forall _ _ _ db h fun s hs hp => ?_
          simp only [Bool.and_eq_true, beq_iff_eq] at hp
          refine ⟨(h s hs).1, fun m hm t' => ?_⟩
          have hm' : s.mealBalances.map (fun m0 => m0.dec t) = some m := hm
          cases hsmb : s.mealBalances with
          | none => rw [hsmb] at hm'; simp at hm'
          | some m0 =>
              rw [hsmb] at hm'
              have hmm : m = m0.dec t := by simpa using hm'.symm
              subst hmm
              rw [MealBalances.get_dec]
              have hpos : 0 < m0.get t := by
                have hmt := hp.1.2
                rw [hsmb] at hmt
                simpa using hmt
              have hnn := (h s hs).2 m0 hsmb
              split
              · omega
              · exact hnn t'

/-- A stored subscription whose balance has just been taken to `0` by a
concurrent scan. -/
def subStored0 : Subscription :=
  { id := 1, customerId := 1, mealsRemaining := 0, endDate := 1000000000,
    active := true }

/-- The stale in-memory snapshot of the same document, read while the
balance was still `1`. -/
def subSnapshot1 : Subscription := { subStored0 with mealsRemaining := 1 }

/-- **C1.**  The failing input: a subscription document whose stored
`mealsRemaining` is `0` at write time while the coordinator's in-memory
snapshot still reads `1` (two concurrent scans of a last meal).
(1) `Subscription.deductMeal` — the conditional update the claim describes —
fails there and leaves the store unchanged, so its callers return
`no_meals_remaining`; (3) on a stored balance of `1` it decrements by
exactly one.  But (2) `scanCore.processScan` (lines 114-117, under the
comment `// Atomic deduction`) performs no conditional update: it clamps
the stale snapshot with `Math.max(0, 1 - 1)` and `save()`s, overwriting the
store and proceeding to record a success — there is no failure path at
write time, contradicting the claim (and the spec's single most important
correctness property, §4.4 step 7). -/
theorem scanCore_decrement_unconditional :
    deductMeal subSnapshot1 none [subStored0] = (none, [subStored0]) ∧
    ScanCore.decrementStep subSnapshot1 [subStored0] =
      some ({ subSnapshot1 with mealsRemaining := 0 },
            [{ subStored0 with mealsRemaining := 0 }]) ∧
    deductMeal subSnapshot1 none [subSnapshot1] =
      (some { subSnapshot1 with mealsRemaining := 0 },
       [{ subSnapshot1 with mealsRemaining := 0 }]) := by
  decide

/-- Mongo `findOne(query).sort({timestamp: -1})` over a transaction list:
the most recent matching document (deterministically: stable sort by
descending timestamp, then first match). -/
def findOneDescTs (txs : List Tx) (pred : Tx → Bool) : Option Tx :=
  (txs.insertionSort fun a b => b.timestamp ≤ a.timestamp).find? pred

theorem findOneDescTs_eq_none {txs : List Tx} {pred : Tx → Bool}
    (h : findOneDescTs txs pred = none) : ∀ tx ∈ txs, pred tx = false := by
  intro tx htx
  have hperm := List.perm_insertionSort
    (fun a b : Tx => b.timestamp ≤ a.timestamp) txs
  have := List.find?_eq_none.mp h tx (hperm.mem_iff.mpr htx)
  simpa using this

theorem findOneDescTs_unique {txs : List Tx} {pred : Tx → Bool} {t : Tx}
    (hmem : t ∈ txs) (hpt : pred t = true)
    (huniq : ∀ x ∈ txs, pred x = true → x = t) :
    findOneDescTs txs pred = some t := by
  unfold findOneDescTs
  have hperm := List.perm_insertionSort
    (fun a b : Tx => b.timestamp ≤ a.timestamp) txs
  have hmem' := hperm.mem_iff.mpr hmem
  have huniq' : ∀ x ∈ txs.insertionSort (fun a b => b.timestamp ≤ a.timestamp),
      pred x = true → x = t := fun x hx => huniq x (hperm.mem_iff.mp hx)
  revert hmem' huniq'
  generalize txs.insertionSort (fun a b => b.timestamp ≤ a.timestamp) = l
  intro hmem' huniq'
  induction l with
  | nil => simp at hmem'
  | cons x rest ih =>
      by_cases hx : pred x
      · have := huniq' x (List.mem_cons_self _ _) hx
        subst this
        simp [List.find?, hx]
      · simp only [List.find?, hx]
        rcases List.mem_cons.mp hmem' with h1 | h2
        · exact absurd (h1 ▸ hpt) (by simp [hx])
        · exact ih h2 fun x' hx' => huniq' x' (List.mem_cons_of_mem _ hx')

namespace MealScannerM

/-- One meal window of the cached `Settings` document, in minutes since
midnight (`stop` is the `end` field; `end` is a Lean keyword).  The source
compares zero-padded `"HH:MM"` strings, which coincides with numeric
comparison of minutes. -/
structure MealWindow where
  start : Int
  stop : Int
  deriving DecidableEq, Repr

/-- The cached settings as read by `MealScanner` (the three windows are
destructured unconditionally; the schema supplies defaults). -/
structure ScannerSettings where
  breakfast : MealWindow
  lunch : MealWindow
  dinner : MealWindow
  doubleScanWindowSeconds : Option Int := none
  deriving DecidableEq, Repr

/-- `MealScanner.getCurrentMealType`: breakfast, then lunch, then dinner,
inclusive boundaries; `none` outside all windows. -/
def getCurrentMealType (st : ScannerSettings) (tod : Int) : Option MealType :=
  if st.breakfast.start ≤ tod && tod ≤ st.breakfast.stop then some .breakfast
  else if st.lunch.start ≤ tod && tod ≤ st.lunch.stop then some .lunch
  else if st.dinner.start ≤ tod && tod ≤ st.dinner.stop then some .dinner
  else none

/-- The payload of a verified QR token (`qrTokenService.verifyToken`). -/
structure QrPayload where
  customerId : Nat
  messId : Nat
  qrCodeId : Option Nat := none
  deriving DecidableEq, Repr

/-- The inputs of one `MealScanner.processScan` call.  `tokenPayload` is
the outcome of the external `qrTokenService.verifyToken` call (`none` when
it threw); `now` is the server clock (`new Date()` / `Date.now()`);
`metadata.messId` is always supplied by the routes. -/
structure ScanInput where
  tokenPayload : Option QrPayload
  scannedByUserId : Nat := 0
  messId : Nat := 0
  adminOverride : Bool := false
  clientTimestamp : Option Int := none
  clientId : Option Nat := none
  now : Int
  deriving DecidableEq, Repr

/-- Step 2: `Customer.findOne({_id, messId, active: true})`. -/
def findCustomer (payload : QrPayload) (db : ScanDb) : Option Customer :=
  db.customers.find? fun c =>
    c.id == payload.customerId && c.messId == payload.messId && c.active

/-- Step 3: resolve the meal type, defaulting to lunch under admin
override when outside every window. -/
def resolveMealType (st : ScannerSettings) (inp : ScanInput) : Option MealType :=
  match getCurrentMealType st (todOfMs inp.now) with
  | some t => some t
  | none => if inp.adminOverride then some .lunch else none

/-- `this.settings?.doubleScanWindowSeconds || 30` (0 is falsy). -/
def windowSeconds (st : ScannerSettings) : Int :=
  match st.doubleScanWindowSeconds with
  | some v => if v = 0 then 30 else v
  | none => 30

/-- Step 4: `MealTransaction.findRecentTransaction` — a successful
transaction of the same customer and meal type within the double-scan
window ending at the server clock. -/
def findDuplicate (st : ScannerSettings) (inp : ScanInput) (db : ScanDb)
    (cid : Nat) (mt : MealType) : Option Tx :=
  findOneDescTs db.txs fun tx =>
    tx.customerId == cid && tx.mealType == some mt && tx.status == .success &&
      (inp.now - windowSeconds st * 1000 ≤ tx.timestamp)

/-- Step 4.5: a successful transaction of the same customer and meal type
today (`timestamp ∈ [startOfDay, tomorrow)`). -/
def findTodayTx (inp : ScanInput) (db : ScanDb) (cid : Nat) (mt : MealType) :
    Option Tx :=
  db.txs.find? fun tx =>
    tx.customerId == cid && tx.mealType == some mt && tx.status == .success &&
      (dayStartMs inp.now ≤ tx.timestamp) && (tx.timestamp < dayStartMs inp.now + dayMs)

/-- Step 5.5: the plan's meal-type restriction — `planId.mealTypes` is
populated and does not include the resolved meal type. -/
def planDisallows (sub : Subscription) (mt : MealType) : Bool :=
  match sub.planMealTypes with
  | some allowed => !(allowed.contains mt)
  | none => false

/-- Step 5: `Subscription.findOne({customerId, active: true,
endDate: {$gte: now}, mealsRemaining: {$gt: 0}})`. -/
def findSubscription (inp : ScanInput) (db : ScanDb) (cid : Nat) :
    Option Subscription :=
  db.subs.find? fun s =>
    s.customerId == cid && s.active && (inp.now ≤ s.endDate) &&
      decide (s.mealsRemaining > 0)

/-- `createFailedTransaction`: records a failed/blocked transaction only
when both a customer id and a subscription id are known (and the tenant id,
always supplied here); the subscription balances are never touched. -/
def failedTx (st : ScannerSettings) (inp : ScanInput) (db : ScanDb)
    (customerId : Option Nat) (subscriptionId : Option Nat)
    (reason : FailureReason) (dupOf : Option Nat) : ScanDb :=
  match customerId, subscriptionId with
  | some cid, some sid =>
      { db with txs :=
          { id := db.txs.length, customerId := cid, subscriptionId := some sid,
            mealType := getCurrentMealType st (todOfMs inp.now),
            status := if reason = .duplicate_scan then .blocked else .failed,
            timestamp := inp.now, failureReason := some reason,
            duplicateOfTransaction := dupOf,
            clientId := inp.clientId } :: db.txs }
  | _, _ => db

theorem failedTx_subs (st inp db customerId subscriptionId reason dupOf) :
    (failedTx st inp db customerId subscriptionId reason dupOf).subs = db.subs := by
  unfold failedTx
  cases customerId <;> cases subscriptionId <;> rfl

/-- The outcome returned to the route: a success payload or a typed
denial. -/
inductive ScanOutcome
  | ok (mealType : MealType) (mealsRemaining : Int)
  | denied (reason : FailureReason)
  deriving DecidableEq, Repr

/-- `MealScanner.processScan` (`utils/mealScanner.js` lines 63-268),
following the source's check order exactly: token, customer, meal window
(admin override defaults to lunch), double-scan window, same-day scan
(skipped under override), subscription (the query itself requires
`active`, unexpired, `mealsRemaining > 0`), pause marker, zero balance,
plan meal-type restriction (skipped under override), then the conditional
decrement `subscription.deductMeal()` (no argument: the legacy
`mealsRemaining` branch), zero-balance auto-deactivation, and the success
transaction. -/
def processScan (st : ScannerSettings) (inp : ScanInput) (db : ScanDb) :
    ScanOutcome × ScanDb :=
  match inp.tokenPayload with
  | none =>
      (.denied .invalid_qr, failedTx st inp db none none .invalid_qr none)
  | some payload =>
      match findCustomer payload db with
      | none =>
          (.denied .customer_not_found,
           failedTx st inp db none none .customer_not_found none)
      | some customer =>
          match resolveMealType st inp with
          | none =>
              (.denied .invalid_meal_window,
               failedTx st inp db (some customer.id) none .invalid_meal_window none)
          | some mealType =>
              match findDuplicate st inp db customer.id mealType with
              | some dup =>
                  (.denied .duplicate_scan,
                   failedTx st inp db (some customer.id) none .duplicate_scan
                     (some dup.id))
              | none =>
                  if (findTodayTx inp db customer.id mealType).isSome &&
                      !inp.adminOverride then
                    (.denied .already_scanned_today,
                     failedTx st inp db (some customer.id) none
                       .already_scanned_today
                       ((findTodayTx inp db customer.id mealType).map (·.id)))
                  else
                    match findSubscription inp db customer.id with
                    | none =>
                        (.denied .no_subscription,
                         failedTx st inp db (some customer.id) none
                           .no_subscription none)
                    | some sub =>
                        if sub.pausedAt.isSome then
                          (.denied .subscription_paused,
                           failedTx st inp db (some customer.id) (some sub.id)
                             .subscription_paused none)
                        else if sub.mealsRemaining ≤ 0 then
                          (.denied .no_meals_remaining,
                           failedTx st inp db (some customer.id) (some sub.id)
                             .no_meals_remaining none)
                        else if !inp.adminOverride && planDisallows sub mealType then
                          (.denied .meal_type_not_allowed,
                           failedTx st inp db (some customer.id) (some sub.id)
                             .meal_type_not_allowed none)
                        else
                          match (deductMeal sub none db.subs).1 with
                          | none =>
                              (.denied .no_meals_remaining,
                               failedTx st inp
                                 { db with subs := (deductMeal sub none db.subs).2 }
                                 (some customer.id) (some sub.id)
                                 .no_meals_remaining none)
                          | some updated =>
                              let subs2 :=
                                if updated.mealsRemaining = 0 then
                                  (deductMeal sub none db.subs).2.map fun s =>
                                    if s.id == updated.id then
                                      { s with active := false }
                                    else s
                                else (deductMeal sub none db.subs).2
                              let tx : Tx :=
                                { id := db.txs.length, customerId := customer.id,
                                  subscriptionId := some sub.id,
                                  mealType := some mealType, status := .success,
                                  timestamp := inp.now, clientId := inp.clientId }
                              (.ok mealType updated.mealsRemaining,
                               { db with subs := subs2, txs := tx :: db.txs })

end MealScannerM

namespace MealScannerM

/-! ### The check order of `processScan`, claim C4.

Each check below is a standalone predicate over the call's inputs; the
returned deny reason is characterised as the first predicate that fires in
the list, which is exactly the "first failing check wins" reading. -/

/-- The customer resolved from the token payload. -/
def customerOf (inp : ScanInput) (db : ScanDb) : Option Customer :=
  inp.tokenPayload.bind fun p => findCustomer p db

/-- The subscription the coordinator would load for the customer. -/
def subOf (inp : ScanInput) (db : ScanDb) : Option Subscription :=
  (customerOf inp db).bind fun c => findSubscription inp db c.id

def chkInvalidQr (inp : ScanInput) : Bool := inp.tokenPayload.isNone

def chkCustomerNotFound (inp : ScanInput) (db : ScanDb) : Bool :=
  inp.tokenPayload.isSome && (customerOf inp db).isNone

def chkWindow (st : ScannerSettings) (inp : ScanInput) (db : ScanDb) : Bool :=
  (customerOf inp db).isSome && (resolveMealType st inp).isNone

def chkDuplicate (st : ScannerSettings) (inp : ScanInput) (db : ScanDb) : Bool :=
  match customerOf inp db, resolveMealType st inp with
  | some c, some mt => (findDuplicate st inp db c.id mt).isSome
  | _, _ => false

def chkToday (st : ScannerSettings) (inp : ScanInput) (db : ScanDb) : Bool :=
  match customerOf inp db, resolveMealType st inp with
  | some c, some mt => (findTodayTx inp db c.id mt).isSome && !inp.adminOverride
  | _, _ => false

def chkNoSub (st : ScannerSettings) (inp : ScanInput) (db : ScanDb) : Bool :=
  (customerOf inp db).isSome && (resolveMealType st inp).isSome &&
    (subOf inp db).isNone

def chkPaused (st : ScannerSettings) (inp : ScanInput) (db : ScanDb) : Bool :=
  (resolveMealType st inp).isSome &&
    (match subOf inp db with
     | some s => s.pausedAt.isSome
     | none => false)

def chkZeroBalance (st : ScannerSettings) (inp : ScanInput) (db : ScanDb) : Bool :=
  (resolveMealType st inp).isSome &&
    (match subOf inp db with
     | some s => decide (s.mealsRemaining ≤ 0)
     | none => false)

def chkNotAllowed (st : ScannerSettings) (inp : ScanInput) (db : ScanDb) : Bool :=
  match resolveMealType st inp, subOf inp db with
  | some mt, some s => !inp.adminOverride && planDisallows s mt
  | _, _ => false

def chkDeductFail (st : ScannerSettings) (inp : ScanInput) (db : ScanDb) : Bool :=
  (resolveMealType st inp).isSome &&
    (match subOf inp db with
     | some s => (deductMeal s none db.subs).1.isNone
     | none => false)

/-- The checks in the order the implementation evaluates them. -/
def orderedChecks (st : ScannerSettings) (inp : ScanInput) (db : ScanDb) :
    List (Bool × FailureReason) :=
  [(chkInvalidQr inp, .invalid_qr),
   (chkCustomerNotFound inp db, .customer_not_found),
   (chkWindow st inp db, .invalid_meal_window),
   (chkDuplicate st inp db, .duplicate_scan),
   (chkToday st inp db, .already_scanned_today),
   (chkNoSub st inp db, .no_subscription),
   (chkPaused st inp db, .subscription_paused),
   (chkZeroBalance st inp db, .no_meals_remaining),
   (chkNotAllowed st inp db, .meal_type_not_allowed),
   (chkDeductFail st inp db, .no_meals_remaining)]

/-- The reason of the first failing check of `orderedChecks`. -/
def firstFailingReason (st : ScannerSettings) (inp : ScanInput) (db : ScanDb) :
    Option FailureReason :=
  ((orderedChecks st inp db).find? (·.1)).map (·.2)

/-! ### The check order the claim asserts (for comparison).

The following definitions follow the claim's words (spec §4.3): customer,
active subscription, pause, meal window, plan restriction, duplicate,
remaining balance — built from the same queries as the implementation.
The `no_active_subscription` and pause/balance checks are independent of
the meal-type resolution there. -/

def specChkNoSub (inp : ScanInput) (db : ScanDb) : Bool :=
  (customerOf inp db).isSome && (subOf inp db).isNone

def specChkPaused (inp : ScanInput) (db : ScanDb) : Bool :=
  match subOf inp db with
  | some s => s.pausedAt.isSome
  | none => false

def specChkNoMeals (inp : ScanInput) (db : ScanDb) : Bool :=
  match subOf inp db with
  | some s => decide (s.mealsRemaining ≤ 0) || (deductMeal s none db.subs).1.isNone
  | none => false

/-- The deny checks in the order asserted by the claim. -/
def claimOrderChecks (st : ScannerSettings) (inp : ScanInput) (db : ScanDb) :
    List (Bool × FailureReason) :=
  [(chkInvalidQr inp, .invalid_qr),
   (chkCustomerNotFound inp db, .customer_not_found),
   (specChkNoSub inp db, .no_subscription),
   (specChkPaused inp db, .subscription_paused),
   (chkWindow st inp db, .invalid_meal_window),
   (chkNotAllowed st inp db, .meal_type_not_allowed),
   (chkDuplicate st inp db, .duplicate_scan),
   (chkToday st inp db, .already_scanned_today),
   (specChkNoMeals inp db, .no_meals_remaining)]

/-- The reason of the first failing check in the claim's order. -/
def claimOrderReason (st : ScannerSettings) (inp : ScanInput) (db : ScanDb) :
    Option FailureReason :=
  ((claimOrderChecks st inp db).find? (·.1)).map (·.2)

/-- Sample settings: the default meal windows (06:30-10:00, 12:00-15:00,
19:00-22:00, minutes since midnight). -/
def sampleSettings : ScannerSettings :=
  { breakfast := { start := 390, stop := 600 },
    lunch := { start := 720, stop := 900 },
    dinner := { start := 1140, stop := 1320 } }

/-- A scan at midnight (outside every window) by an active customer with no
subscription at all. -/
def sampleInputMidnight : ScanInput :=
  { tokenPayload := some { customerId := 5, messId := 2 }, messId := 2,
    now := 0 }

def sampleDbNoSub : ScanDb :=
  { customers := [{ id := 5, messId := 2, qrCodeId := 9, active := true }],
    subs := [], txs := [] }

end MealScannerM

/-- **C4** counterexample.  A scan outside every meal window by an active
customer with no active subscription: the implementation denies it with
`invalid_meal_window` (= the claim's `outside_meal_window`) because
`MealScanner.processScan` resolves the meal window *before* it looks for a
subscription, while the claim's order — customer, `no_active_subscription`,
`subscription_paused`, `outside_meal_window`, … — requires the earlier
`no_active_subscription` (= the code's `no_subscription`) to win. -/
theorem processScan_order_counterexample :
    (MealScannerM.processScan MealScannerM.sampleSettings
        MealScannerM.sampleInputMidnight MealScannerM.sampleDbNoSub).1 =
      .denied .invalid_meal_window ∧
    MealScannerM.claimOrderReason MealScannerM.sampleSettings
        MealScannerM.sampleInputMidnight MealScannerM.sampleDbNoSub =
      some .no_subscription ∧
    FailureReason.invalid_meal_window ≠ FailureReason.no_subscription := by
  decide

open MealScannerM in
/-- **C4** (amended).  `MealScanner.processScan` evaluates its deny checks
in the fixed order: invalid token, customer not found, outside meal window
(unless admin override), duplicate scan in the double-scan window, already
scanned today (unless override), no active unexpired subscription with a
positive balance, subscription paused, zero balance, meal type not allowed
by the plan (unless override), conditional-decrement failure — and the
first failing check determines the returned reason; a success is returned
exactly when no check fires.  The claim's order (subscription and pause
checks before the meal-window, plan-restriction and duplicate checks before
the balance check only) is refuted by the counterexample. -/
theorem processScan_first_failing (st : ScannerSettings) (inp : ScanInput)
    (db : ScanDb) :
    (∀ r, (processScan st inp db).1 = .denied r ↔
        firstFailingReason st inp db = some r) ∧
    ((∃ mt rem, (processScan st inp db).1 = .ok mt rem) ↔
        firstFailingReason st inp db = none) := by
  have main : ∀ r, (processScan st inp db).1 = .denied r ↔
      firstFailingReason st inp db = some r := by
    intro r
    unfold processScan firstFailingReason orderedChecks
    cases htok : inp.tokenPayload with
    | none => simp [chkInvalidQr, htok]
    | some payload =>
    cases hcust : findCustomer payload db with
    | none => simp [chkInvalidQr, chkCustomerNotFound, customerOf, htok, hcust]
    | some customer =>
    cases hmt : resolveMealType st inp with
    | none =>
        simp [chkInvalidQr, chkCustomerNotFound, chkWindow, customerOf, htok,
          hcust, hmt]
    | some mealType =>
    cases hdup : findDuplicate st inp db customer.id mealType with
    | some dup =>
        simp [chkInvalidQr, chkCustomerNotFound, chkWindow, chkDuplicate,
          customerOf, htok, hcust, hmt, hdup]
    | none =>
    cases htoday : findTodayTx inp db customer.id mealType with
    | some tday =>
        cases hov : inp.adminOverride with
        | false =>
            simp [chkInvalidQr, chkCustomerNotFound, chkWindow, chkDuplicate,
              chkToday, customerOf, htok, hcust, hmt, hdup, htoday, hov]
        | true =>
            cases hsub : findSubscription inp db customer.id with
            | none =>
                simp [chkInvalidQr, chkCustomerNotFound, chkWindow,
                  chkDuplicate, chkToday, chkNoSub, customerOf, subOf, htok,
                  hcust, hmt, hdup, htoday, hov, hsub]
            | some sub =>
            cases hpause : sub.pausedAt with
            | some p =>
                simp [chkInvalidQr, chkCustomerNotFound, chkWindow,
                  chkDuplicate, chkToday, chkNoSub, chkPaused, customerOf,
                  subOf, htok, hcust, hmt, hdup, htoday, hov, hsub, hpause]
            | none =>
            by_cases hzero : sub.mealsRemaining ≤ 0
            · simp [chkInvalidQr, chkCustomerNotFound, chkWindow, chkDuplicate,
                chkToday, chkNoSub, chkPaused, chkZeroBalance, customerOf,
                subOf, htok, hcust, hmt, hdup, htoday, hov, hsub, hpause,
                hzero]
            · cases hded : (deductMeal sub none db.subs).1 with
              | none =>
                  simp [chkInvalidQr, chkCustomerNotFound, chkWindow,
                    chkDuplicate, chkToday, chkNoSub, chkPaused,
                    chkZeroBalance, chkNotAllowed, chkDeductFail, customerOf,
                    subOf, htok, hcust, hmt, hdup, htoday, hov, hsub, hpause,
                    hzero, hded]
              | some updated =>
                  simp [chkInvalidQr, chkCustomerNotFound, chkWindow,
                    chkDuplicate, chkToday, chkNoSub, chkPaused,
                    chkZeroBalance, chkNotAllowed, chkDeductFail, customerOf,
                    subOf, htok, hcust, hmt, hdup, htoday, hov, hsub, hpause,
                    hzero, hded]
    | none =>
    cases hsub : findSubscription inp db customer.id with
    | none =>
        simp [chkInvalidQr, chkCustomerNotFound, chkWindow, chkDuplicate,
          chkToday, chkNoSub, customerOf, subOf, htok, hcust, hmt, hdup,
          htoday, hsub]
    | some sub =>
    cases hpause : sub.pausedAt with
    | some p =>
        simp [chkInvalidQr, chkCustomerNotFound, chkWindow, chkDuplicate,
          chkToday, chkNoSub, chkPaused, customerOf, subOf, htok, hcust, hmt,
          hdup, htoday, hsub, hpause]
    | none =>
    by_cases hzero : sub.mealsRemaining ≤ 0
    · simp [chkInvalidQr, chkCustomerNotFound, chkWindow, chkDuplicate,
        chkToday, chkNoSub, chkPaused, chkZeroBalance, customerOf, subOf,
        htok, hcust, hmt, hdup, htoday, hsub, hpause, hzero]
    · cases hov : inp.adminOverride with
      | false =>
          cases hpd : planDisallows sub mealType with
          | true =>
              simp [chkInvalidQr, chkCustomerNotFound, chkWindow, chkDuplicate,
                chkToday, chkNoSub, chkPaused, chkZeroBalance, chkNotAllowed,
                customerOf, subOf, htok, hcust, hmt, hdup, htoday, hsub,
                hpause, hzero, hov, hpd]
          | false =>
              cases hded : (deductMeal sub none db.subs).1 with
              | none =>
                  simp [chkInvalidQr, chkCustomerNotFound, chkWindow,
                    chkDuplicate, chkToday, chkNoSub, chkPaused,
                    chkZeroBalance, chkNotAllowed, chkDeductFail, customerOf,
                    subOf, htok, hcust, hmt, hdup, htoday, hsub, hpause,
                    hzero, hov, hpd, hded]
              | some updated =>
                  simp [chkInvalidQr, chkCustomerNotFound, chkWindow,
                    chkDuplicate, chkToday, chkNoSub, chkPaused,
                    chkZeroBalance, chkNotAllowed, chkDeductFail, customerOf,
                    subOf, htok, hcust, hmt, hdup, htoday, hsub, hpause,
                    hzero, hov, hpd, hded]
      | true =>
          cases hded : (deductMeal sub none db.subs).1 with
          | none =>
              simp [chkInvalidQr, chkCustomerNotFound, chkWindow, chkDuplicate,
                chkToday, chkNoSub, chkPaused, chkZeroBalance, chkNotAllowed,
                chkDeductFail, customerOf, subOf, htok, hcust, hmt, hdup,
                htoday, hsub, hpause, hzero, hov, hded]
          | some updated =>
              simp [chkInvalidQr, chkCustomerNotFound, chkWindow, chkDuplicate,
                chkToday, chkNoSub, chkPaused, chkZeroBalance, chkNotAllowed,
                chkDeductFail, customerOf, subOf, htok, hcust, hmt, hdup,
                htoday, hsub, hpause, hzero, hov, hded]
  refine ⟨main, ?_, ?_⟩
  · rintro ⟨mt, rem, hok⟩
    cases hff : firstFailingReason st inp db with
    | none => rfl
    | some r =>
        have h2 := (main r).mpr hff
        rw [hok] at h2
        exact absurd h2 (by simp)
  · intro hff
    cases hout : (processScan st inp db).1 with
    | ok mt rem => exact ⟨mt, rem, rfl⟩
    | denied r =>
        have h2 := (main r).mp hout
        rw [hff] at h2
        exact absurd h2 (by simp)

/-- Closed witness for `processScan_first_failing`: at the midnight sample
input the first failing check is the meal-window check. -/
theorem processScan_first_failing_witness :
    MealScannerM.firstFailingReason MealScannerM.sampleSettings
        MealScannerM.sampleInputMidnight MealScannerM.sampleDbNoSub =
      some .invalid_meal_window :=
  ((processScan_first_failing MealScannerM.sampleSettings
      MealScannerM.sampleInputMidnight MealScannerM.sampleDbNoSub).1
    FailureReason.invalid_meal_window).mp (by decide)

theorem deductMeal_none {self : Subscription} {mealType : Option MealType}
    {db : List Subscription} (h : (deductMeal self mealType db).1 = none) :
    (deductMeal self mealType db).2 = db := by
  unfold deductMeal at h ⊢
  cases hmb : self.mealBalances <;> rw [hmb] at h <;> cases mealType <;>
    exact findOneAndUpdateSub_none h

/-- A successful `deductMeal()` call with no meal-type argument (the legacy
branch) found a stored document that was `active` with a positive
`mealsRemaining` at write time and decremented it by exactly one. -/
theorem deductMeal_legacy_some {self : Subscription} {db : List Subscription}
    {u : Subscription} (h : (deductMeal self none db).1 = some u) :
    ∃ s ∈ db, s.active = true ∧ 0 < s.mealsRemaining ∧
      u = { s with mealsRemaining := s.mealsRemaining - 1 } := by
  unfold deductMeal at h
  cases hmb : self.mealBalances with
  | none =>
      rw [hmb] at h
      obtain ⟨s, hs, hp, hu⟩ := findOneAndUpdateSub_some h
      simp only [Bool.and_eq_true, beq_iff_eq, decide_eq_true_eq] at hp
      exact ⟨s, hs, hp.2, by omega, hu⟩
  | some mb =>
      rw [hmb] at h
      obtain ⟨s, hs, hp, hu⟩ := findOneAndUpdateSub_some h
      simp only [Bool.and_eq_true, beq_iff_eq, decide_eq_true_eq] at hp
      exact ⟨s, hs, hp.2, by omega, hu⟩

open MealScannerM in
/-- **C6.**  Every denial path of `MealScanner.processScan` returns a typed
reason and leaves every subscription document — in particular every
balance — unchanged (only the transaction/audit log may grow); the
subscription store is mutated only through the conditional decrement on the
success path, which decremented a document that was `active` with a
positive balance at write time by exactly one.  In particular a
`meal_type_not_allowed` denial leaves the balance unchanged. -/
theorem processScan_denials_side_effect_free (st : ScannerSettings)
    (inp : ScanInput) (db : ScanDb) :
    (∀ r, (processScan st inp db).1 = .denied r →
        (processScan st inp db).2.subs = db.subs) ∧
    (∀ mt rem, (processScan st inp db).1 = .ok mt rem →
        ∃ s ∈ db.subs, s.active = true ∧ 0 < s.mealsRemaining ∧
          rem = s.mealsRemaining - 1) := by
  unfold processScan
  cases htok : inp.tokenPayload with
  | none =>
      exact ⟨fun r _ => by simp [htok, failedTx_subs],
             fun mt rem h => by simp [htok] at h⟩
  | some payload =>
  cases hcust : findCustomer payload db with
  | none =>
      exact ⟨fun r _ => by simp [htok, hcust, failedTx_subs],
             fun mt rem h => by simp [htok, hcust] at h⟩
  | some customer =>
  cases hmt : resolveMealType st inp with
  | none =>
      exact ⟨fun r _ => by simp [htok, hcust, hmt, failedTx_subs],
             fun mt rem h => by simp [htok, hcust, hmt] at h⟩
  | some mealType =>
  cases hdup : findDuplicate st inp db customer.id mealType with
  | some dup =>
      exact ⟨fun r _ => by simp [htok, hcust, hmt, hdup, failedTx_subs],
             fun mt rem h => by simp [htok, hcust, hmt, hdup] at h⟩
  | none =>
  by_cases htoday : ((findTodayTx inp db customer.id mealType).isSome &&
      !inp.adminOverride) = true
  · exact ⟨fun r _ => by simp [htok, hcust, hmt, hdup, htoday, failedTx_subs],
           fun mt rem h => by simp [htok, hcust, hmt, hdup, htoday] at h⟩
  · cases hsub : findSubscription inp db customer.id with
    | none =>
        exact ⟨fun r _ => by
                 simp [htok, hcust, hmt, hdup, htoday, hsub, failedTx_subs],
               fun mt rem h => by
                 simp [htok, hcust, hmt, hdup, htoday, hsub] at h⟩
    | some sub =>
    by_cases hpause : sub.pausedAt.isSome = true
    · exact ⟨fun r _ => by
               simp [htok, hcust, hmt, hdup, htoday, hsub, hpause,
                 failedTx_subs],
             fun mt rem h => by
               simp [htok, hcust, hmt, hdup, htoday, hsub, hpause] at h⟩
    · by_cases hzero : sub.mealsRemaining ≤ 0
      · exact ⟨fun r _ => by
                 simp [htok, hcust, hmt, hdup, htoday, hsub, hpause, hzero,
                   failedTx_subs],
               fun mt rem h => by
                 simp [htok, hcust, hmt, hdup, htoday, hsub, hpause, hzero]
                   at h⟩
      · by_cases hallow : (!inp.adminOverride && planDisallows sub mealType) = true
        · exact ⟨fun r _ => by
                   simp [htok, hcust, hmt, hdup, htoday, hsub, hpause, hzero,
                     hallow, failedTx_subs],
                 fun mt rem h => by
                   simp [htok, hcust, hmt, hdup, htoday, hsub, hpause, hzero,
                     hallow] at h⟩
        · cases hded : (deductMeal sub none db.subs).1 with
          | none =>
              refine ⟨fun r _ => ?_, fun mt rem h => ?_⟩
              · simp [htok, hcust, hmt, hdup, htoday, hsub, hpause, hzero,
                  hallow, hded, failedTx_subs, deductMeal_none hded]
              · simp [htok, hcust, hmt, hdup, htoday, hsub, hpause, hzero,
                  hallow, hded] at h
          | some updated =>
              refine ⟨fun r h => ?_, fun mt rem h => ?_⟩
              · simp [htok, hcust, hmt, hdup, htoday, hsub, hpause, hzero,
                  hallow, hded] at h
              · simp [htok, hcust, hmt, hdup, htoday, hsub, hpause, hzero,
                  hallow, hded] at h
                obtain ⟨s, hs, hact, hpos, hu⟩ := deductMeal_legacy_some hded
                exact ⟨s, hs, hact, hpos, by rw [← h.2, hu]⟩

/-- A lunch-time scan (13:00) by a customer whose plan allows only
breakfast. -/
def MealScannerM.sampleInputLunch : MealScannerM.ScanInput :=
  { tokenPayload := some { customerId := 5, messId := 2 }, messId := 2,
    now := 46800000 }

def MealScannerM.sampleSubRestricted : Subscription :=
  { id := 3, customerId := 5, mealsRemaining := 5, endDate := 100000000000,
    active := true, planMealTypes := some [.breakfast] }

def MealScannerM.sampleDbRestricted : ScanDb :=
  { customers := [{ id := 5, messId := 2, qrCodeId := 9, active := true }],
    subs := [MealScannerM.sampleSubRestricted], txs := [] }

/-- Closed witness for `processScan_denials_side_effect_free`: the
plan-restriction scenario — a dinner-type plan violation is denied
`meal_type_not_allowed` and the balance is untouched. -/
theorem processScan_denials_side_effect_free_witness :
    (MealScannerM.processScan MealScannerM.sampleSettings
        MealScannerM.sampleInputLunch MealScannerM.sampleDbRestricted).1 =
      .denied .meal_type_not_allowed ∧
    (MealScannerM.processScan MealScannerM.sampleSettings
        MealScannerM.sampleInputLunch MealScannerM.sampleDbRestricted).2.subs =
      MealScannerM.sampleDbRestricted.subs :=
  ⟨by decide,
   (processScan_denials_side_effect_free MealScannerM.sampleSettings
       MealScannerM.sampleInputLunch MealScannerM.sampleDbRestricted).1
     FailureReason.meal_type_not_allowed (by decide)⟩

namespace MealTypeHelper

/-! ## The meal window resolver `determineMealType`
(`utils/mealTypeHelper.js`), used by `scanCore` and the batch route. -/

/-- One configured window.  The source reads `start`/`end` with `from`/`to`
fallbacks (`w?.start || w?.from`); a missing boundary makes the window
unmatchable.  `stop`/`toT` stand for the keywords `end`/`to`; values are
minutes since midnight (comparison of zero-padded `"HH:MM"` strings
coincides with numeric comparison of minutes). -/
structure WindowCfg where
  start : Option Int := none
  stop : Option Int := none
  fromT : Option Int := none
  toT : Option Int := none
  deriving DecidableEq, Repr

structure MealWindowsCfg where
  breakfast : Option WindowCfg := none
  lunch : Option WindowCfg := none
  dinner : Option WindowCfg := none
  deriving DecidableEq, Repr

/-- The per-tenant settings consumed by the resolver and the batch route
(the fields the redemption core reads). -/
structure Settings where
  mealWindows : MealWindowsCfg
  doubleScanWindowSeconds : Option Int := none
  deriving DecidableEq, Repr

/-- `isTimeInWindow(currentTime, windowStart, windowEnd)`: `false` when a
boundary is missing, otherwise inclusive containment. -/
def isTimeInWindow (currentTime : Int) (ws wend : Option Int) : Bool :=
  match ws, wend with
  | some s, some e => s ≤ currentTime && currentTime ≤ e
  | _, _ => false

def winStart (w : Option WindowCfg) : Option Int :=
  w.bind fun c => c.start.orElse fun _ => c.fromT

def winEnd (w : Option WindowCfg) : Option Int :=
  w.bind fun c => c.stop.orElse fun _ => c.toT

/-- `determineMealType(config)`: breakfast, then lunch, then dinner; first
window containing the current local time of day wins; `none` otherwise.
(The source derives the time of day from the ambient clock; a second
argument passed by the batch route is ignored.) -/
def determineMealType (cfg : Settings) (tod : Int) : Option MealType :=
  if isTimeInWindow tod (winStart cfg.mealWindows.breakfast)
      (winEnd cfg.mealWindows.breakfast) then some .breakfast
  else if isTimeInWindow tod (winStart cfg.mealWindows.lunch)
      (winEnd cfg.mealWindows.lunch) then some .lunch
  else if isTimeInWindow tod (winStart cfg.mealWindows.dinner)
      (winEnd cfg.mealWindows.dinner) then some .dinner
  else none

/-- The fixed priority order of the resolver. -/
def mealPriority : List MealType := [.breakfast, .lunch, .dinner]

/-- The configured window of a meal type (the resolver never consults a
snack window). -/
def windowOf (cfg : Settings) : MealType → Option WindowCfg
  | .breakfast => cfg.mealWindows.breakfast
  | .lunch => cfg.mealWindows.lunch
  | .dinner => cfg.mealWindows.dinner
  | .snack => none

/-- The default windows with lunch configured `{start: "12:00",
end: "15:00"}` (the boundary scenario of the claim). -/
def cfgBoundary : Settings :=
  { mealWindows :=
      { breakfast := some { start := some 390, stop := some 600 },
        lunch := some { start := some 720, stop := some 900 },
        dinner := some { start := some 1140, stop := some 1320 } } }

end MealTypeHelper

open MealTypeHelper in
/-- **C8.**  The meal window resolver checks breakfast, lunch, dinner in
that fixed priority order and returns the first type whose configured
window contains the given time of day with inclusive boundaries, `none`
when no window matches — equivalently, it is the first match over the
priority list.  For a lunch window `{start: "12:00", end: "15:00"}` it
returns lunch at exactly 12:00 (720) and 15:00 (900) and `none` at 11:59
(719) and 15:01 (901). -/
theorem determineMealType_priority_and_boundaries :
    (∀ (cfg : Settings) (tod : Int),
       determineMealType cfg tod =
         mealPriority.find? fun t =>
           isTimeInWindow tod (winStart (windowOf cfg t))
             (winEnd (windowOf cfg t))) ∧
    determineMealType cfgBoundary 720 = some .lunch ∧
    determineMealType cfgBoundary 900 = some .lunch ∧
    determineMealType cfgBoundary 719 = none ∧
    determineMealType cfgBoundary 901 = none := by
  refine ⟨fun cfg tod => ?_, by decide, by decide, by decide, by decide⟩
  unfold determineMealType mealPriority windowOf
  simp only [List.find?]
  by_cases hb : isTimeInWindow tod (winStart cfg.mealWindows.breakfast)
      (winEnd cfg.mealWindows.breakfast) = true
  · simp [hb]
  · simp only [Bool.not_eq_true] at hb
    simp only [hb, if_false]
    by_cases hl : isTimeInWindow tod (winStart cfg.mealWindows.lunch)
        (winEnd cfg.mealWindows.lunch) = true
    · simp [hl]
    · simp only [Bool.not_eq_true] at hl
      simp only [hl, if_false]
      by_cases hd : isTimeInWindow tod (winStart cfg.mealWindows.dinner)
          (winEnd cfg.mealWindows.dinner) = true
      · simp [hd]
      · simp only [Bool.not_eq_true] at hd
        simp [hd]

namespace SettingsCache

/-! ## The settings cache `getSettings` (`utils/settingsCache.js`). -/

/-- The cache TTL (60 seconds). -/
def TTL : Int := 60000

/-- `getDefaultSettings()`: the hardcoded safe defaults — breakfast
06:30-10:00, lunch 12:00-15:00, dinner 19:00-22:00, a 30-second double-scan
window.  (The `alertThresholdMealsRemaining` and `timezone` fields are not
read by the redemption core and are omitted.) -/
def getDefaultSettings : MealTypeHelper.Settings :=
  { mealWindows :=
      { breakfast := some { start := some 390, stop := some 600 },
        lunch := some { start := some 720, stop := some 900 },
        dinner := some { start := some 1140, stop := some 1320 } },
    doubleScanWindowSeconds := some 30 }

/-- The module-level cache (`cache`, `loadedAt`). -/
structure CacheState where
  cache : Option MealTypeHelper.Settings := none
  loadedAt : Int := 0
  deriving DecidableEq, Repr

/-- The `try/catch` body: on success cache `s || getDefaultSettings()`;
on provider failure return `cache || getDefaultSettings()` without
touching the cache. -/
def fetchSettings (st : CacheState) (now : Int)
    (provider : Except Unit (Option MealTypeHelper.Settings)) :
    MealTypeHelper.Settings × CacheState :=
  match provider with
  | .ok s =>
      let v := s.getD getDefaultSettings
      (v, { cache := some v, loadedAt := now })
  | .error _ => (st.cache.getD getDefaultSettings, st)

/-- `getSettings()`: return the cached value while it is younger than the
TTL, otherwise consult the provider (`Settings.findOne`, whose outcome —
a document, no document, or a thrown error — is the `provider`
argument). -/
def getSettings (st : CacheState) (now : Int)
    (provider : Except Unit (Option MealTypeHelper.Settings)) :
    MealTypeHelper.Settings × CacheState :=
  match st.cache with
  | some c => if now - st.loadedAt < TTL then (c, st) else fetchSettings st now provider
  | none => fetchSettings st now provider

end SettingsCache

open SettingsCache in
/-- **C9.**  (1) A cached value younger than the TTL is returned without
querying the provider (the result is the same for every provider outcome);
(2) when the provider throws, `getSettings` returns the cached value if one
exists (even a stale one) and (3) the hardcoded defaults otherwise, never
propagating the error; (4) the defaults carry the 30-second double-scan
window and the default meal windows. -/
theorem getSettings_ttl_and_fallback (st : CacheState) (now : Int) :
    (∀ c, st.cache = some c → now - st.loadedAt < TTL →
       ∀ provider, getSettings st now provider = (c, st)) ∧
    (∀ c, st.cache = some c → getSettings st now (.error ()) = (c, st)) ∧
    (st.cache = none → getSettings st now (.error ()) = (getDefaultSettings, st)) ∧
    getDefaultSettings.doubleScanWindowSeconds = some 30 := by
  refine ⟨fun c hc hf provider => ?_, fun c hc => ?_, fun hc => ?_, rfl⟩
  · simp [getSettings, hc, hf]
  · by_cases hf : now - st.loadedAt < TTL
    · simp [getSettings, hc, hf]
    · simp [getSettings, fetchSettings, hc, hf]
  · simp [getSettings, fetchSettings, hc]

/-- Closed witness for `getSettings_ttl_and_fallback`: a fresh cache is
served without consulting the provider; an empty cache plus a throwing
provider yields the defaults. -/
theorem getSettings_ttl_and_fallback_witness :
    SettingsCache.getSettings
        { cache := some SettingsCache.getDefaultSettings, loadedAt := 1000 }
        2000 (.error ()) =
      (SettingsCache.getDefaultSettings,
       { cache := some SettingsCache.getDefaultSettings, loadedAt := 1000 }) ∧
    SettingsCache.getSettings { } 2000 (.error ()) =
      (SettingsCache.getDefaultSettings, { }) :=
  ⟨(getSettings_ttl_and_fallback
      { cache := some SettingsCache.getDefaultSettings, loadedAt := 1000 }
      2000).1 SettingsCache.getDefaultSettings rfl (by decide) (.error ()),
   (getSettings_ttl_and_fallback { } 2000).2.2.1 rfl⟩

/-- Mongo `findOne(query).sort({updatedAt: -1})` over the subscription
collection. -/
def findOneDescUpdated (subs : List Subscription) (pred : Subscription → Bool) :
    Option Subscription :=
  (subs.insertionSort fun a b => b.updatedAt ≤ a.updatedAt).find? pred

namespace ScanBatch

/-! ## The batch redemption driver (`routes/scanBatch.js`). -/

/-- One element of the submitted `scans` array. -/
structure BatchScan where
  qrToken : Option Nat := none
  clientTimestamp : Option Int := none
  clientId : Option Nat := none
  deriving DecidableEq, Repr

inductive BStatus
  | success
  | blocked
  | failed
  deriving DecidableEq, Repr

inductive BReason
  | missing_qrToken
  | invalid_qr_signature
  | invalid_qr_payload
  | unknown_customer
  | no_active_subscription
  | outside_meal_window
  | duplicate_scan
  | no_meals_remaining
  deriving DecidableEq, Repr

/-- The per-scan result object of the batch route. -/
structure BatchResult where
  success : Bool
  status : BStatus
  reason : Option BReason := none
  clientId : Option Nat := none
  mealsRemaining : Option Int := none
  mealType : Option MealType := none
  deriving DecidableEq, Repr

/-- `settings?.doubleScanWindowSeconds || 30` (0 is falsy). -/
def windowSec (settings : MealTypeHelper.Settings) : Int :=
  match settings.doubleScanWindowSeconds with
  | some v => if v = 0 then 30 else v
  | none => 30

/-- `processSingleScan` (`routes/scanBatch.js` lines 96-299).  `verify` is
the outcome of `verifyQrToken` (verified in detail separately): `none` for
an invalid signature, `some q` for a valid payload whose `qrCodeId` is `q`
(possibly absent).  `now` is the server clock; the reference date for the
subscription validity window and the duplicate window is
`clientTimestamp || Date.now()`, while the meal-type resolver uses the
server clock (its second argument is ignored by the helper).  Note the
order: customer, subscription (the query already demands `active` and
`mealsRemaining > 0`), meal window, duplicate window, then the conditional
decrement (`_id` + `mealsRemaining > 0`, no `active` condition). -/
def processSingleScan (verify : Nat → Option (Option Nat))
    (settings : MealTypeHelper.Settings) (now : Int) (scan : BatchScan)
    (db : ScanDb) : BatchResult × ScanDb :=
  match scan.qrToken with
  | none =>
      ({ success := false, status := .failed, reason := some .missing_qrToken,
         clientId := scan.clientId }, db)
  | some tok =>
  match verify tok with
  | none =>
      ({ success := false, status := .blocked,
         reason := some .invalid_qr_signature, clientId := scan.clientId }, db)
  | some payloadQr =>
  match payloadQr with
  | none =>
      ({ success := false, status := .failed,
         reason := some .invalid_qr_payload, clientId := scan.clientId }, db)
  | some qrCodeId =>
  match db.customers.find? fun c => c.qrCodeId == qrCodeId && c.active with
  | none =>
      ({ success := false, status := .blocked, reason := some .unknown_customer,
         clientId := scan.clientId }, db)
  | some customer =>
  match findOneDescUpdated db.subs fun s =>
      s.customerId == customer.id && s.active && decide (s.mealsRemaining > 0) &&
        (s.startDate ≤ dayStartMs (scan.clientTimestamp.getD now)) &&
        (dayStartMs (scan.clientTimestamp.getD now) ≤ s.endDate) with
  | none =>
      ({ success := false, status := .blocked,
         reason := some .no_active_subscription, clientId := scan.clientId }, db)
  | some sub =>
  match MealTypeHelper.determineMealType settings (todOfMs now) with
  | none =>
      ({ success := false, status := .blocked,
         reason := some .outside_meal_window, clientId := scan.clientId }, db)
  | some mealType =>
  match findOneDescTs db.txs fun tx =>
      tx.subscriptionId == some sub.id && tx.mealType == some mealType &&
        (scan.clientTimestamp.getD now - windowSec settings * 1000 ≤ tx.timestamp) &&
        tx.status == .success with
  | some _ =>
      ({ success := false, status := .blocked, reason := some .duplicate_scan,
         clientId := scan.clientId }, db)
  | none =>
  match (findOneAndUpdateSub db.subs
      (fun s => s.id == sub.id && decide (s.mealsRemaining > 0))
      fun s => { s with mealsRemaining := s.mealsRemaining - 1 }).1 with
  | none =>
      ({ success := false, status := .blocked,
         reason := some .no_meals_remaining, clientId := scan.clientId },
       { db with subs := (findOneAndUpdateSub db.subs
           (fun s => s.id == sub.id && decide (s.mealsRemaining > 0))
           fun s => { s with mealsRemaining := s.mealsRemaining - 1 }).2 })
  | some updated =>
      ({ success := true, status := .success, clientId := scan.clientId,
         mealsRemaining := some updated.mealsRemaining,
         mealType := some mealType },
       { db with
         subs := (findOneAndUpdateSub db.subs
           (fun s => s.id == sub.id && decide (s.mealsRemaining > 0))
           fun s => { s with mealsRemaining := s.mealsRemaining - 1 }).2,
         txs := { id := db.txs.length, customerId := customer.id,
                  subscriptionId := some sub.id, mealType := some mealType,
                  status := .success,
                  timestamp := scan.clientTimestamp.getD now,
                  clientId := scan.clientId } :: db.txs })

/-- The sort key of the chronological sort: `clientTimestamp || 0`. -/
def sortKey (s : BatchScan) : Int := s.clientTimestamp.getD 0

/-- Sequential replay of the (already sorted) scans; each element's outcome
is independent — a failure never aborts the rest. -/
def processScansSeq (verify : Nat → Option (Option Nat))
    (settings : MealTypeHelper.Settings) (now : Int) :
    List BatchScan → ScanDb → List BatchResult × ScanDb
  | [], db => ([], db)
  | s :: rest, db =>
      let r := processSingleScan verify settings now s db
      let rr := processScansSeq verify settings now rest r.2
      (r.1 :: rr.1, rr.2)

/-- The aggregate response of `POST /scan/batch`. -/
structure BatchSummary where
  totalScans : Nat
  successCount : Nat
  blockedCount : Nat
  failedCount : Nat
  results : List BatchResult
  deriving DecidableEq, Repr

/-- The batch route: stable sort by `clientTimestamp || 0` ascending
(the ECMAScript sort is stable), sequential replay, aggregate counts. -/
def processBatch (verify : Nat → Option (Option Nat))
    (settings : MealTypeHelper.Settings) (now : Int)
    (scans : List BatchScan) (db : ScanDb) : BatchSummary × ScanDb :=
  let sorted := scans.insertionSort fun a b => sortKey a ≤ sortKey b
  let r := processScansSeq verify settings now sorted db
  ({ totalScans := r.1.length,
     successCount := (r.1.filter fun x => x.success && x.status == .success).length,
     blockedCount := (r.1.filter fun x => x.status == .blocked).length,
     failedCount := (r.1.filter fun x => !x.success || x.status == .failed).length,
     results := r.1 }, r.2)

end ScanBatch

/-- Two lists that are sorted by a key, are permutations of each other, and
have pairwise-distinct keys are equal: the sorted order is unique when the
sort keys are distinct. -/
theorem eq_of_perm_sorted_keyNodup {α : Type} (key : α → Int) :
    ∀ (l1 l2 : List α), l1.Perm l2 →
      l1.Sorted (fun a b => key a ≤ key b) →
      l2.Sorted (fun a b => key a ≤ key b) →
      (l1.map key).Nodup → l1 = l2 := by
  intro l1
  induction l1 with
  | nil => intro l2 hperm _ _ _; exact hperm.nil_eq
  | cons a t1 ih =>
      intro l2 hperm hs1 hs2 hnd
      cases l2 with
      | nil => exact absurd hperm.symm.nil_eq (by simp)
      | cons b t2 =>
          have hnd2 : (∀ x ∈ t1, ¬key x = key a) ∧ (List.map key t1).Nodup := by
            simpa using hnd
          by_cases hab : a = b
          · subst hab
            have ht : t1.Perm t2 := hperm.cons_inv
            rw [ih t2 ht (List.sorted_cons.mp hs1).2 (List.sorted_cons.mp hs2).2 hnd2.2]
          · exfalso
            have hamem : a ∈ b :: t2 := hperm.mem_iff.mp (List.mem_cons_self _ _)
            have ha2 : a ∈ t2 := by
              rcases List.mem_cons.mp hamem with h | h
              · exact absurd h hab
              · exact h
            have hbmem : b ∈ a :: t1 := hperm.mem_iff.mpr (List.mem_cons_self _ _)
            have hb1 : b ∈ t1 := by
              rcases List.mem_cons.mp hbmem with h | h
              · exact absurd h.symm hab
              · exact h
            have hk1 : key a ≤ key b := (List.sorted_cons.mp hs1).1 b hb1
            have hk2 : key b ≤ key a := (List.sorted_cons.mp hs2).1 a ha2
            have hk : key b = key a := le_antisymm hk2 hk1
            exact hnd2.1 b hb1 hk

/-- With pairwise-distinct `clientTimestamp` keys, every permutation of the
submitted batch sorts to the same list. -/
theorem batch_sort_eq_of_perm (scans1 scans2 : List ScanBatch.BatchScan)
    (hperm : scans1.Perm scans2)
    (hnd : (scans1.map ScanBatch.sortKey).Nodup) :
    scans1.insertionSort (fun a b => ScanBatch.sortKey a ≤ ScanBatch.sortKey b) =
      scans2.insertionSort (fun a b => ScanBatch.sortKey a ≤ ScanBatch.sortKey b) := by
  haveI : IsTotal ScanBatch.BatchScan
      (fun a b => ScanBatch.sortKey a ≤ ScanBatch.sortKey b) :=
    ⟨fun a b => le_total _ _⟩
  haveI : IsTrans ScanBatch.BatchScan
      (fun a b => ScanBatch.sortKey a ≤ ScanBatch.sortKey b) :=
    ⟨fun a b c hab hbc => le_trans hab hbc⟩
  apply eq_of_perm_sorted_keyNodup ScanBatch.sortKey
  · exact (List.perm_insertionSort _ _).trans
      (hperm.trans (List.perm_insertionSort _ _).symm)
  · exact List.sorted_insertionSort _ _
  · exact List.sorted_insertionSort _ _
  · exact (((List.perm_insertionSort _ scans1).map ScanBatch.sortKey).nodup_iff).mpr hnd

open ScanBatch in
/-- **C7** (amended).  The batch route sorts the submitted scans by
`clientTimestamp` ascending before replaying them sequentially, and one
element's failure never aborts the rest (each element returns its own
result object by construction).  Consequently, for a batch whose
`clientTimestamp` keys are pairwise distinct, the per-scan results and the
aggregate counts are identical for every permutation of the submitted
array.  (For tied timestamps the stable sort preserves submission order
among the ties, so per-scan outcomes can depend on the submission order —
see the counterexample.) -/
theorem processBatch_perm_invariant (verify : Nat → Option (Option Nat))
    (settings : MealTypeHelper.Settings) (now : Int)
    (scans1 scans2 : List BatchScan) (db : ScanDb)
    (hperm : scans1.Perm scans2)
    (hnd : (scans1.map sortKey).Nodup) :
    processBatch verify settings now scans1 db =
      processBatch verify settings now scans2 db := by
  unfold processBatch
  rw [batch_sort_eq_of_perm scans1 scans2 hperm hnd]

def ScanBatch.sampleVerify : Nat → Option (Option Nat) := fun tok =>
  if tok = 7 then some (some 9) else none

def ScanBatch.sampleDb : ScanDb :=
  { customers := [{ id := 5, messId := 2, qrCodeId := 9, active := true }],
    subs := [{ id := 3, customerId := 5, mealsRemaining := 10,
               endDate := 100000000000, active := true }],
    txs := [] }

/-- A valid scan at 13:00 (lunch). -/
def ScanBatch.scanT1 : ScanBatch.BatchScan :=
  { qrToken := some 7, clientTimestamp := some 46800000, clientId := some 1 }

/-- The same customer scanned again 30 seconds later. -/
def ScanBatch.scanT2 : ScanBatch.BatchScan :=
  { qrToken := some 7, clientTimestamp := some 46830000, clientId := some 2 }

/-- A second scan with a `clientTimestamp` tied with `scanT1`. -/
def ScanBatch.scanTie : ScanBatch.BatchScan :=
  { qrToken := some 7, clientTimestamp := some 46800000, clientId := some 2 }

/-- Closed witness for `processBatch_perm_invariant`: the [T+30s, T] batch
gives the same output as the [T, T+30s] batch, and that output is: the T
scan succeeds, the T+30s scan is denied `duplicate_scan`. -/
theorem processBatch_perm_invariant_witness :
    ScanBatch.processBatch ScanBatch.sampleVerify MealTypeHelper.cfgBoundary
        46800000 [ScanBatch.scanT2, ScanBatch.scanT1] ScanBatch.sampleDb =
      ScanBatch.processBatch ScanBatch.sampleVerify MealTypeHelper.cfgBoundary
        46800000 [ScanBatch.scanT1, ScanBatch.scanT2] ScanBatch.sampleDb ∧
    (ScanBatch.processBatch ScanBatch.sampleVerify MealTypeHelper.cfgBoundary
        46800000 [ScanBatch.scanT1, ScanBatch.scanT2] ScanBatch.sampleDb).1.results.map
        (fun r => (r.status, r.reason, r.clientId)) =
      [(.success, none, some 1), (.blocked, some .duplicate_scan, some 2)] :=
  ⟨processBatch_perm_invariant ScanBatch.sampleVerify MealTypeHelper.cfgBoundary
      46800000 [ScanBatch.scanT2, ScanBatch.scanT1]
      [ScanBatch.scanT1, ScanBatch.scanT2] ScanBatch.sampleDb
      (List.Perm.swap _ _ _) (by decide),
   by decide⟩

/-- **C7** counterexample.  With two scans sharing one `clientTimestamp`
(same customer, distinct `clientId`s), the stable sort preserves submission
order among the ties, so the scan submitted first wins and the other is
denied `duplicate_scan`: the outcome attached to `clientId` 1 is `success`
in one submission order and `blocked`/`duplicate_scan` in the other — the
per-scan outcomes are not the same for every permutation of the submitted
array, as the claim requires. -/
theorem processBatch_tie_counterexample :
    ([ScanBatch.scanT1, ScanBatch.scanTie] : List ScanBatch.BatchScan).Perm
      [ScanBatch.scanTie, ScanBatch.scanT1] ∧
    ((ScanBatch.processBatch ScanBatch.sampleVerify MealTypeHelper.cfgBoundary
        46800000 [ScanBatch.scanT1, ScanBatch.scanTie]
        ScanBatch.sampleDb).1.results.find?
          (fun r => r.clientId == some 1)).map (fun r => (r.status, r.reason)) =
      some (.success, none) ∧
    ((ScanBatch.processBatch ScanBatch.sampleVerify MealTypeHelper.cfgBoundary
        46800000 [ScanBatch.scanTie, ScanBatch.scanT1]
        ScanBatch.sampleDb).1.results.find?
          (fun r => r.clientId == some 1)).map (fun r => (r.status, r.reason)) =
      some (.blocked, some .duplicate_scan) := by
  decide

theorem findOneDescUpdated_eq_none_of_all {subs : List Subscription}
    {pred : Subscription → Bool} (h : ∀ s ∈ subs, pred s = false) :
    findOneDescUpdated subs pred = none := by
  unfold findOneDescUpdated
  refine List.find?_eq_none.mpr fun x hx => ?_
  have hmem := (List.perm_insertionSort
    (fun a b : Subscription => b.updatedAt ≤ a.updatedAt) subs).mem_iff.mp hx
  simp [h x hmem]

namespace IdemScan

/-! ## The idempotent coordinator (`services/idempotentScanService.js`). -/

/-- The fixed meal windows of `getMealWindowBoundaries` (hours). -/
def windowHours : MealType → Option (Int × Int)
  | .breakfast => some (7, 10)
  | .lunch => some (12, 15)
  | .dinner => some (19, 22)
  | .snack => none

/-- `getMealWindowBoundaries(mealType)`: `[start hour, end hour + 59:59.999]`
of the current day; `none` models the `'Invalid meal type'` throw. -/
def getMealWindowBoundaries (mealType : MealType) (now : Int) :
    Option (Int × Int) :=
  (windowHours mealType).map fun w =>
    (dayStartMs now + w.1 * 3600000, dayStartMs now + w.2 * 3600000 + 3599999)

/-- `findExistingScan(customerId, mealType, windowStart, windowEnd)`: the
most recent successful transaction of the customer and meal type inside
the window. -/
def findExistingScan (txs : List Tx) (customerId : Nat) (mealType : MealType)
    (wStart wEnd : Int) : Option Tx :=
  findOneDescTs txs fun tx =>
    tx.customerId == customerId && tx.mealType == some mealType &&
      tx.status == .success && (wStart ≤ tx.timestamp) && (tx.timestamp ≤ wEnd)

/-- `deductMealAtomic(subscriptionId, mealsRemainingBefore)`.  The query
object literal writes the `mealsRemaining` key twice, so the later
`{$gt: 0}` overwrites the `mealsRemainingBefore` optimistic lock
(ECMAScript duplicate-key semantics): the effective precondition is `_id`
plus `mealsRemaining > 0`. -/
def deductMealAtomic (subscriptionId : Nat) (subs : List Subscription) :
    Option Subscription × List Subscription :=
  findOneAndUpdateSub subs
    (fun s => s.id == subscriptionId && decide (s.mealsRemaining > 0))
    fun s => { s with mealsRemaining := s.mealsRemaining - 1 }

/-- The outcomes of `processScanIdempotent`: an idempotency hit (STEP 1),
the lost-race re-check hit, a fresh success, the `NO_MEALS_REMAINING`
`ApiError`, or the invalid-meal-type throw. -/
inductive IdemOutcome
  | hit (tx : Tx)
  | hitRace (tx : Tx)
  | done (tx : Tx) (sub : Subscription)
  | throwNoMeals
  | throwBadMealType
  deriving DecidableEq, Repr

/-- The handler of a failed conditional update (`processScanIdempotent`
lines 139-160): re-check for a success record created by a sibling request
and return it as an idempotent result; only if none exists throw the raw
`NO_MEALS_REMAINING` failure. -/
def handleDeductFailure (customerId : Nat) (mealType : MealType)
    (wStart wEnd : Int) (st : ScanDb) : IdemOutcome :=
  match findExistingScan st.txs customerId mealType wStart wEnd with
  | some recent => .hitRace recent
  | none => .throwNoMeals

/-- `processScanIdempotent(customerId, mealType, subscription, metadata)`:
idempotency check, conditional decrement, transaction record, zero-balance
auto-deactivation.  The new transaction's timestamp is the server clock
`now`. -/
def processScanIdempotent (customerId : Nat) (mealType : MealType)
    (subscription : Subscription) (now : Int) (st : ScanDb) :
    IdemOutcome × ScanDb :=
  match getMealWindowBoundaries mealType now with
  | none => (.throwBadMealType, st)
  | some w =>
      match findExistingScan st.txs customerId mealType w.1 w.2 with
      | some existing => (.hit existing, st)
      | none =>
          match (deductMealAtomic subscription.id st.subs).1 with
          | none =>
              (handleDeductFailure customerId mealType w.1 w.2
                 { st with subs := (deductMealAtomic subscription.id st.subs).2 },
               { st with subs := (deductMealAtomic subscription.id st.subs).2 })
          | some updated =>
              let tx : Tx :=
                { id := st.txs.length, customerId := customerId,
                  subscriptionId := some subscription.id,
                  mealType := some mealType, status := .success,
                  timestamp := now }
              if updated.mealsRemaining = 0 then
                (.done tx { updated with active := false },
                 { st with
                   subs := (deductMealAtomic subscription.id st.subs).2.map
                     (fun s =>
                       if s.id == updated.id then { s with active := false }
                       else s),
                   txs := tx :: st.txs })
              else
                (.done tx updated,
                 { st with
                   subs := (deductMealAtomic subscription.id st.subs).2,
                   txs := tx :: st.txs })

theorem getMealWindowBoundaries_day_congr {n1 n2 : Int} (mt : MealType)
    (h : dayStartMs n1 = dayStartMs n2) :
    getMealWindowBoundaries mt n1 = getMealWindowBoundaries mt n2 := by
  unfold getMealWindowBoundaries
  rw [h]

end IdemScan

open IdemScan in
/-- **C3.**  Idempotent retry.  If a `processScanIdempotent` call performs a
fresh successful redemption (recording transaction `tx`), then replaying
the identical customer/meal-type request against the resulting state —
any time later in the same meal window of the same day — returns the very
same transaction `tx` as an idempotent hit and leaves the state untouched:
no second decrement happens.  Moreover (second conjunct), whenever the
conditional update fails, the coordinator's failure handler re-checks for
an existing success record and returns it as an idempotent result instead
of the raw `NO_MEALS_REMAINING` failure. -/
theorem processScanIdempotent_retry (cid : Nat) (mt : MealType)
    (sub sub2 : Subscription) (now1 now2 ws we : Int) (st0 st1 : ScanDb)
    (tx : Tx) (u : Subscription)
    (hw : getMealWindowBoundaries mt now1 = some (ws, we))
    (hday : dayStartMs now2 = dayStartMs now1)
    (hts1 : ws ≤ now1) (hts2 : now1 ≤ we)
    (hcall1 : processScanIdempotent cid mt sub now1 st0 = (.done tx u, st1)) :
    processScanIdempotent cid mt sub2 now2 st1 = (.hit tx, st1) ∧
    (∀ (st : ScanDb) (rtx : Tx),
       findExistingScan st.txs cid mt ws we = some rtx →
       handleDeductFailure cid mt ws we st = .hitRace rtx) := by
  refine ⟨?_, fun st rtx h => by unfold handleDeductFailure; rw [h]⟩
  simp only [processScanIdempotent, hw] at hcall1
  cases hex : findExistingScan st0.txs cid mt ws we with
  | some e => simp [hex] at hcall1
  | none =>
      simp only [hex] at hcall1
      cases hded : (deductMealAtomic sub.id st0.subs).1 with
      | none =>
          simp only [hded, handleDeductFailure] at hcall1
          simp [hex] at hcall1
      | some updated =>
          simp only [hded] at hcall1
          have hpred := findOneDescTs_eq_none (by
            unfold findExistingScan at hex
            exact hex)
          have hfind : findExistingScan
              ({ id := st0.txs.length, customerId := cid,
                 subscriptionId := some sub.id, mealType := some mt,
                 status := .success, timestamp := now1 } :: st0.txs)
              cid mt ws we =
              some { id := st0.txs.length, customerId := cid,
                     subscriptionId := some sub.id, mealType := some mt,
                     status := .success, timestamp := now1 } := by
            unfold findExistingScan
            apply findOneDescTs_unique (List.mem_cons_self _ _)
            · simp [hts1, hts2]
            · intro x hx hpx
              rcases List.mem_cons.mp hx with h | h
              · exact h
              · exact absurd hpx (by simp [hpred x h])
          by_cases hzero : updated.mealsRemaining = 0
          · rw [if_pos hzero] at hcall1
            simp only [Prod.mk.injEq, IdemOutcome.done.injEq] at hcall1
            obtain ⟨⟨htx, hu⟩, hst⟩ := hcall1
            subst htx
            subst hst
            simp only [processScanIdempotent,
              getMealWindowBoundaries_day_congr mt hday, hw, hfind]
          · rw [if_neg hzero] at hcall1
            simp only [Prod.mk.injEq, IdemOutcome.done.injEq] at hcall1
            obtain ⟨⟨htx, hu⟩, hst⟩ := hcall1
            subst htx
            subst hst
            simp only [processScanIdempotent,
              getMealWindowBoundaries_day_congr mt hday, hw, hfind]

def IdemScan.sampleSub : Subscription :=
  { id := 3, customerId := 5, mealsRemaining := 5, endDate := 100000000000,
    active := true }

def IdemScan.sampleSt0 : ScanDb :=
  { customers := [], subs := [IdemScan.sampleSub], txs := [] }

def IdemScan.sampleTx : Tx :=
  { id := 0, customerId := 5, subscriptionId := some 3,
    mealType := some .lunch, status := .success, timestamp := 46800000 }

def IdemScan.sampleSt1 : ScanDb :=
  { customers := [],
    subs := [{ IdemScan.sampleSub with mealsRemaining := 4 }],
    txs := [IdemScan.sampleTx] }

/-- Closed witness for `processScanIdempotent_retry`: a 13:00 lunch
redemption recorded `sampleTx`; replaying the request at 13:01:40 returns
the very same transaction and state. -/
theorem processScanIdempotent_retry_witness :
    IdemScan.processScanIdempotent 5 .lunch IdemScan.sampleSub 46900000
        IdemScan.sampleSt1 =
      (.hit IdemScan.sampleTx, IdemScan.sampleSt1) :=
  (processScanIdempotent_retry 5 .lunch IdemScan.sampleSub IdemScan.sampleSub
      46800000 46900000 43200000 57599999 IdemScan.sampleSt0
      IdemScan.sampleSt1 IdemScan.sampleTx
      { IdemScan.sampleSub with mealsRemaining := 4 }
      (by decide) (by decide) (by decide) (by decide) (by decide)).1

open IdemScan in
/-- **C5.**  Zero-balance auto-deactivation.  (1) When a fresh successful
redemption brings the subscription's remaining balance to exactly zero,
`processScanIdempotent` marks the document inactive within the same call:
the returned subscription has `active = false` and so does every stored
document with its id.  (2) A subsequent fresh redemption attempt (one whose
meal window holds no previous success record) against a customer all of
whose subscriptions have a non-positive balance is denied with the
`NO_MEALS_REMAINING` failure rather than succeeding.  (3) In the batch
driver, whose subscription query itself demands `mealsRemaining > 0`, such
a subsequent scan is denied `no_active_subscription`, with the store
untouched. -/
theorem processScanIdempotent_zero_deactivation :
    (∀ (cid : Nat) (mt : MealType) (sub : Subscription) (now : Int)
       (st0 st1 : ScanDb) (tx : Tx) (u : Subscription),
       processScanIdempotent cid mt sub now st0 = (.done tx u, st1) →
       u.mealsRemaining = 0 →
       u.active = false ∧ ∀ s ∈ st1.subs, s.id = u.id → s.active = false) ∧
    (∀ (cid : Nat) (mt : MealType) (sub : Subscription) (now ws we : Int)
       (st : ScanDb),
       getMealWindowBoundaries mt now = some (ws, we) →
       findExistingScan st.txs cid mt ws we = none →
       (∀ s ∈ st.subs, s.id = sub.id → s.mealsRemaining ≤ 0) →
       processScanIdempotent cid mt sub now st = (.throwNoMeals, st)) ∧
    (∀ (verify : Nat → Option (Option Nat))
       (settings : MealTypeHelper.Settings) (now : Int)
       (scan : ScanBatch.BatchScan) (db : ScanDb) (tok q : Nat)
       (customer : Customer),
       scan.qrToken = some tok → verify tok = some (some q) →
       db.customers.find? (fun c => c.qrCodeId == q && c.active) =
         some customer →
       (∀ s ∈ db.subs, s.customerId = customer.id → s.mealsRemaining ≤ 0) →
       ScanBatch.processSingleScan verify settings now scan db =
         ({ success := false, status := .blocked,
            reason := some .no_active_subscription,
            clientId := scan.clientId }, db)) := by
  refine ⟨?_, ?_, ?_⟩
  · intro cid mt sub now st0 st1 tx u hcall hzero
    unfold processScanIdempotent at hcall
    cases hw : getMealWindowBoundaries mt now with
    | none => rw [hw] at hcall; simp at hcall
    | some w =>
        rw [hw] at hcall
        cases hex : findExistingScan st0.txs cid mt w.1 w.2 with
        | some e => simp [hex] at hcall
        | none =>
            simp only [hex] at hcall
            cases hded : (deductMealAtomic sub.id st0.subs).1 with
            | none =>
                simp only [hded, handleDeductFailure] at hcall
                rcases hfind : findExistingScan st0.txs cid mt w.1 w.2 with _ | e2 <;>
                  simp [hfind] at hcall
            | some updated =>
                simp only [hded] at hcall
                by_cases hz : updated.mealsRemaining = 0
                · rw [if_pos hz] at hcall
                  simp only [Prod.mk.injEq, IdemOutcome.done.injEq] at hcall
                  obtain ⟨⟨htx, hu⟩, hst⟩ := hcall
                  subst hu
                  subst hst
                  refine ⟨rfl, fun s hs hid => ?_⟩
                  simp only [List.mem_map] at hs
                  obtain ⟨orig, horig, hso⟩ := hs
                  by_cases hoid : (orig.id == updated.id) = true
                  · rw [if_pos hoid] at hso
                    rw [← hso]
                  · rw [if_neg hoid] at hso
                    exfalso
                    apply hoid
                    rw [← hso] at hid
                    simpa using hid
                · rw [if_neg hz] at hcall
                  simp only [Prod.mk.injEq, IdemOutcome.done.injEq] at hcall
                  obtain ⟨⟨htx, hu⟩, hst⟩ := hcall
                  subst hu
                  exact absurd hzero hz
  · intro cid mt sub now ws we st hw hex hallzero
    have hded : deductMealAtomic sub.id st.subs = (none, st.subs) := by
      apply findOneAndUpdateSub_none_of_all
      intro s hs
      by_cases hid : s.id = sub.id
      · simp [hid, hallzero s hs hid]
      · simp [hid]
    simp only [processScanIdempotent, hw, hex, hded, handleDeductFailure]
  · intro verify settings now scan db tok q customer hscan hv hcust hallzero
    have hsub : findOneDescUpdated db.subs (fun s =>
        s.customerId == customer.id && s.active &&
          decide (s.mealsRemaining > 0) &&
          (s.startDate ≤ dayStartMs (scan.clientTimestamp.getD now)) &&
          (dayStartMs (scan.clientTimestamp.getD now) ≤ s.endDate)) = none := by
      apply findOneDescUpdated_eq_none_of_all
      intro s hs
      by_cases hid : s.customerId = customer.id
      · simp [hid, hallzero s hs hid]
      · simp [hid]
    simp only [ScanBatch.processSingleScan, hscan, hv, hcust, hsub]

def IdemScan.subOne : Subscription :=
  { id := 3, customerId := 5, mealsRemaining := 1, endDate := 100000000000,
    active := true }

def IdemScan.stA : ScanDb :=
  { customers := [], subs := [IdemScan.subOne], txs := [] }

/-- `subOne` after the last meal was redeemed: balance 0, auto-deactivated. -/
def IdemScan.uA : Subscription :=
  { id := 3, customerId := 5, mealsRemaining := 0, endDate := 100000000000,
    active := false }

def IdemScan.txA : Tx :=
  { id := 0, customerId := 5, subscriptionId := some 3,
    mealType := some .lunch, status := .success, timestamp := 46800000 }

def IdemScan.stB : ScanDb :=
  { customers := [], subs := [IdemScan.uA], txs := [IdemScan.txA] }

/-- Closed witness for `processScanIdempotent_zero_deactivation`: redeeming
the last lunch deactivates the subscription in the same call; a fresh lunch
attempt the next day throws `NO_MEALS_REMAINING`; a batch scan against the
zeroed subscription is denied `no_active_subscription`. -/
theorem processScanIdempotent_zero_deactivation_witness :
    (IdemScan.uA.active = false ∧
      ∀ s ∈ IdemScan.stB.subs, s.id = IdemScan.uA.id → s.active = false) ∧
    IdemScan.processScanIdempotent 5 .lunch IdemScan.subOne (dayMs + 46800000)
        IdemScan.stB = (.throwNoMeals, IdemScan.stB) ∧
    ScanBatch.processSingleScan ScanBatch.sampleVerify
        MealTypeHelper.cfgBoundary 46800000 ScanBatch.scanT1
        { ScanBatch.sampleDb with subs := [IdemScan.uA] } =
      ({ success := false, status := .blocked,
         reason := some .no_active_subscription, clientId := some 1 },
       { ScanBatch.sampleDb with subs := [IdemScan.uA] }) :=
  ⟨processScanIdempotent_zero_deactivation.1 5 .lunch IdemScan.subOne 46800000
      IdemScan.stA IdemScan.stB IdemScan.txA IdemScan.uA (by decide) (by decide),
   processScanIdempotent_zero_deactivation.2.1 5 .lunch IdemScan.subOne
      (dayMs + 46800000) (dayMs + 43200000) (dayMs + 57599999) IdemScan.stB
      (by decide) (by decide) (by decide),
   processScanIdempotent_zero_deactivation.2.2 ScanBatch.sampleVerify
      MealTypeHelper.cfgBoundary 46800000 ScanBatch.scanT1
      { ScanBatch.sampleDb with subs := [IdemScan.uA] } 7 9
      { id := 5, messId := 2, qrCodeId := 9, active := true }
      (by rfl) (by rfl) (by decide) (by decide)⟩
